import Mathlib

/-!
# FRTTransceiver: buffered-channel management

A shallow embedding of `src/FRTTransceiver.cpp`.

* Handles (`FRTTransceiver_TaskHandle`, `FRTTransceiver_QueueHandle`,
  `FRTTransceiver_SemaphoreHandle`, `void *`) are natural numbers, `0` being `NULL`.
* C arrays (`_structCommPartners`, `tempContainer`, `txLineContainer`) are functions of the
  index; their lengths are fixed in `FRTTransceiver.h`. An index outside the array is undefined
  in the source and is an ordinary cell here; every callback invocation records the index it
  was handed, so the positions a run touches can be read off its call list.
* `uint8_t` and `int8_t` values are `Nat` and `Int`; conversions that can lose information are
  written out (`% 256`, `wrapI8`).
* The FreeRTOS primitives are the environment: what `xSemaphoreTake`, `xQueueReceive`,
  `uxQueueMessagesWaiting` and `xQueueSendToBack` answer is an argument of the operation, and
  every call into a primitive or a callback is appended to the operation's call list.
-/

namespace FRT

/-- Modelled from the spec: the wait-forever sentinel `FRTTRANSCEIVER_WAITMAX`. The macro is
defined in `FRTTransceiver.h`; the comment in `_checkWaitTime` states its value, `-1`. -/
def FRTTRANSCEIVER_WAITMAX : Int := -1

/-- Modelled from the spec: the message envelope `DataContainerOnQueue` (declared in
`FRTTransceiver.h`): a raw data reference, a one-byte type discriminant and the additional-data
field (`u32AdditionalData` or `u64AdditionalData`, one of them per build). -/
structure DataContainerOnQueue where
  data : Nat
  u8DataType : Nat
  additionalData : Nat
deriving DecidableEq, Repr

/-- The tick count handed to a blocking primitive:
`timeToWait == FRTTRANSCEIVER_WAITMAX ? portMAX_DELAY : pdMS_TO_TICKS(timeToWait)`. -/
inductive TickWait where
  | portMAX_DELAY
  | pdMS_TO_TICKS (timeToWait : Int)
deriving DecidableEq, Repr

/-- One call that leaves the transceiver: into the lock primitive, the queue primitive, or one
of the two caller-supplied callbacks. `slot` is the `tempContainer` index of the argument. -/
inductive Call (T : Type) where
  | xSemaphoreTake (semaphore : Nat) (ticks : TickWait)
  | xSemaphoreGive (semaphore : Nat)
  | xQueueReceive (queue : Nat) (ticks : TickWait)
  | xQueueSendToBack (queue : Nat) (item : DataContainerOnQueue) (ticks : TickWait)
  | uxQueueMessagesWaiting (queue : Nat)
  | dataAllocator (received : DataContainerOnQueue) (slot : Int) (produced : T)
  | dataDestroyer (slot : Int) (object : T)
deriving DecidableEq, Repr

/-- Modelled from the spec: `struct CommunicationPartner` (declared in `FRTTransceiver.h`),
with the members the source file reads and writes. -/
structure CommunicationPartner (T : Type) where
  commPartner : Nat
  semaphore : Nat
  rxQueue : Nat
  txQueue : Nat
  u8RxQueueLength : Nat
  u8TxQueueLength : Nat
  rxLineContainer : DataContainerOnQueue
  txLineContainer : Nat → DataContainerOnQueue
  hasBufferedData : Bool
  rxQueueFull : Bool
  i8CurrTempcontainerPos : Int
  tempContainer : Int → T
  partnersName : String

/-- Modelled from the spec: a default-constructed `CommunicationPartner` (the member
initialisers are in `FRTTransceiver.h`): no handles, no queues, occupancy index `-1` meaning
empty, both buffer flags clear. -/
def CommunicationPartner.init {T : Type} (dflt : T) : CommunicationPartner T :=
  { commPartner := 0
    semaphore := 0
    rxQueue := 0
    txQueue := 0
    u8RxQueueLength := 0
    u8TxQueueLength := 0
    rxLineContainer := ⟨0, 0, 0⟩
    txLineContainer := fun _ => ⟨0, 0, 0⟩
    hasBufferedData := false
    rxQueueFull := false
    i8CurrTempcontainerPos := -1
    tempContainer := fun _ => dflt
    partnersName := "" }

/-- The members of `class FRTTransceiver`. A callback slot is `none` while the function pointer
is `NULL`. The allocate callback receives the envelope and a reference to the target slot, the
destroy callback a reference to the slot: both may rewrite the slot. -/
structure FRTTransceiver (T : Type) where
  _u8MaxPartners : Nat
  _u8CurrCommPartners : Nat
  _structCommPartners : Nat → CommunicationPartner T
  _dataAllocator : Option (DataContainerOnQueue → T → T)
  _dataDestroyer : Option (T → T)

/-- What an operation leaves behind: the new state, the returned value and the calls made. -/
structure Outcome (T R : Type) where
  state : FRTTransceiver T
  ret : R
  calls : List (Call T)

/-- Conversion of an `int` to `int8_t` (two's complement wrap-around). -/
def wrapI8 (x : Int) : Int := (x + 128) % 256 - 128

/-- `timeToWait == FRTTRANSCEIVER_WAITMAX ? portMAX_DELAY : pdMS_TO_TICKS(timeToWait)`. -/
def toTicks (timeToWait : Int) : TickWait :=
  if timeToWait = FRTTRANSCEIVER_WAITMAX then TickWait.portMAX_DELAY
  else TickWait.pdMS_TO_TICKS timeToWait

/-- `FRTTransceiver::_checkWaitTime`. -/
def _checkWaitTime (timeMs : Int) : Int :=
  if timeMs < FRTTRANSCEIVER_WAITMAX ∨ (timeMs > FRTTRANSCEIVER_WAITMAX ∧ timeMs < 0) then -2
  else timeMs

/-- `FRTTransceiver::_checkValidQueueLength`; `maxElements` is the header constant
`FRTTRANSCEIVER_MAXELEMENTSIZEONQUEUE`. -/
def _checkValidQueueLength (maxElements : Nat) (u8QueueLength : Nat) : Bool :=
  !(decide (u8QueueLength ≤ 0) || decide (u8QueueLength > maxElements))

namespace FRTTransceiver

variable {T : Type}

/-- Modelled from the spec: `FRTTransceiver::FRTTransceiver(u8MaxPartners)`: an array of
`u8MaxPartners` default-constructed records; the partner count starts at zero and both callback
slots empty (in-class initialisers of `FRTTransceiver.h`). -/
def new (u8MaxPartners : Nat) (dflt : T) : FRTTransceiver T :=
  { _u8MaxPartners := u8MaxPartners
    _u8CurrCommPartners := 0
    _structCommPartners := fun _ => CommunicationPartner.init dflt
    _dataAllocator := none
    _dataDestroyer := none }

/-- An assignment to members of `this->_structCommPartners[pos]`. -/
def modifyPartner (self : FRTTransceiver T) (pos : Nat)
    (f : CommunicationPartner T → CommunicationPartner T) : FRTTransceiver T :=
  { self with
    _structCommPartners := Function.update self._structCommPartners pos
      (f (self._structCommPartners pos)) }

/-- `this->_dataDestroyer(slot)`: the slot after the call. -/
def callDestroyer (self : FRTTransceiver T) (object : T) : T :=
  match self._dataDestroyer with
  | some destroy => destroy object
  | none => object

/-- `this->_dataAllocator(received, slot)`: the slot after the call. -/
def callAllocator (self : FRTTransceiver T) (received : DataContainerOnQueue) (slot : T) : T :=
  match self._dataAllocator with
  | some allocate => allocate received slot
  | none => slot

/-- `FRTTransceiver::_hasDataInterpreters`. -/
def _hasDataInterpreters (self : FRTTransceiver T) : Bool :=
  self._dataAllocator.isSome && self._dataDestroyer.isSome

/-- `FRTTransceiver::_getCommStruct`: the first index below the partner count whose record
holds `partner`, `-1` for `NULL` or when there is none. -/
def _getCommStruct (self : FRTTransceiver T) (partner : Nat) : Int :=
  if partner = 0 then -1
  else
    match (List.range self._u8CurrCommPartners).find?
        (fun i => decide ((self._structCommPartners i).commPartner = partner)) with
    | some i => (i : Int)
    | none => -1

/-- `FRTTransceiver::_hasSemaphore`. -/
def _hasSemaphore (self : FRTTransceiver T) (partner : Nat) : Bool :=
  let pos := self._getCommStruct partner
  if pos = -1 then false
  else if (self._structCommPartners pos.toNat).semaphore ≠ 0 then true
  else false

/-- `FRTTransceiver::_getAmountOfMessages`; `depth` is what `uxQueueMessagesWaiting` answers. -/
def _getAmountOfMessages (queue : Nat) (depth : Nat) : Int × List (Call T) :=
  if queue ≠ 0 then ((depth : Int), [Call.uxQueueMessagesWaiting queue])
  else (-1, [])

/-- `FRTTransceiver::_rearrangeTempContainerArray`: for `u8I = 1 .. i8CurrTempcontainerPos`,
`tempContainer[u8I-1] = tempContainer[u8I]`. The counter is a `uint8_t` and the bound an
`int8_t` (at most 127), so the counter does not wrap. -/
def _rearrangeTempContainerArray (self : FRTTransceiver T) (u8CommStructPos : Nat) :
    FRTTransceiver T :=
  (List.range' 1 (self._structCommPartners u8CommStructPos).i8CurrTempcontainerPos.toNat).foldl
    (fun (acc : FRTTransceiver T) (u8I : Nat) => acc.modifyPartner u8CommStructPos (fun p =>
      { p with tempContainer :=
          Function.update p.tempContainer ((u8I : Int) - 1) (p.tempContainer (u8I : Int)) }))
    self

/-- `FRTTransceiver::addCommPartner`. The identity is stored before the lock is checked, as in
the source. -/
def addCommPartner (self : FRTTransceiver T) (partnersAddress semaphore queueRX u8QueueLengthRx
    queueTX u8QueueLengthTx : Nat) (partnersName : String) : Outcome T Bool :=
  if self._u8CurrCommPartners + 1 > self._u8MaxPartners then ⟨self, false, []⟩
  else if partnersAddress = 0 then ⟨self, false, []⟩
  else
    let cur := self._u8CurrCommPartners
    let s1 := self.modifyPartner cur (fun p => { p with commPartner := partnersAddress })
    if semaphore = 0 then ⟨s1, false, []⟩
    else
      let s2 := s1.modifyPartner cur (fun p => { p with semaphore := semaphore })
      let s3 := if queueRX ≠ 0 then
          s2.modifyPartner cur (fun p =>
            { p with rxQueue := queueRX, u8RxQueueLength := u8QueueLengthRx })
        else s2
      let s4 := if queueTX ≠ 0 then
          s3.modifyPartner cur (fun p =>
            { p with txQueue := queueTX, u8TxQueueLength := u8QueueLengthTx })
        else s3
      let s5 := s4.modifyPartner cur (fun p => { p with partnersName := partnersName })
      ⟨{ s5 with _u8CurrCommPartners := (s5._u8CurrCommPartners + 1) % 256 }, true, []⟩

/-- `FRTTransceiver::addCommQueue`. -/
def addCommQueue (self : FRTTransceiver T) (partner queueRxOrTx u8QueueLength : Nat)
    (isTxQueue : Bool) : Outcome T Bool :=
  let pos := self._getCommStruct partner
  if pos = -1 ∨ queueRxOrTx = 0 then ⟨self, false, []⟩
  else if isTxQueue = true then
    ⟨self.modifyPartner pos.toNat (fun temp =>
      { temp with txQueue := queueRxOrTx, u8TxQueueLength := u8QueueLength }), true, []⟩
  else
    ⟨self.modifyPartner pos.toNat (fun temp =>
      { temp with rxQueue := queueRxOrTx, u8RxQueueLength := u8QueueLength }), true, []⟩

/-- `FRTTransceiver::writeToQueue`. `takeOk`, `depth` and `sendOk` are the answers of
`xSemaphoreTake`, `uxQueueMessagesWaiting` and `xQueueSendToBack`. The result of
`_checkWaitTime` is kept as the `int` it is: the source stores it in an `unsigned long` and
compares it with `-2` and the sentinel converted the same way, which compares the `int`
values. -/
def writeToQueue (maxElements : Nat) (self : FRTTransceiver T) (destination u8DataType
    data : Nat) (blockTimeWrite blockTimeTakeSemaphore : Int) (additionalData : Nat)
    (takeOk : Bool) (depth : Nat) (sendOk : Bool) : Outcome T Bool :=
  let pos := self._getCommStruct destination
  if self._hasDataInterpreters = false ∨ self._hasSemaphore destination = false ∨ pos = -1 then
    ⟨self, false, []⟩
  else
    let p := self._structCommPartners pos.toNat
    if p.txQueue = 0 ∨ _checkValidQueueLength maxElements p.u8TxQueueLength = false
        ∨ data = 0 then
      ⟨self, false, []⟩
    else
      let timeToWait := _checkWaitTime blockTimeTakeSemaphore
      if timeToWait = -2 then ⟨self, false, []⟩
      else
        let s := p.semaphore
        let take : Call T := Call.xSemaphoreTake s (toTicks timeToWait)
        if takeOk = false then ⟨self, false, [take]⟩
        else
          let timeToWait := _checkWaitTime blockTimeWrite
          if timeToWait = -2 then ⟨self, false, [take, Call.xSemaphoreGive s]⟩
          else
            let amount : Int × List (Call T) := _getAmountOfMessages p.txQueue depth
            let u8MessagesOnQueue : Nat := (amount.1 % 256).toNat
            if p.u8TxQueueLength = u8MessagesOnQueue then
              ⟨self, false, [take] ++ amount.2 ++ [Call.xSemaphoreGive s]⟩
            else
              let item : DataContainerOnQueue := ⟨data, u8DataType, additionalData⟩
              let s1 := self.modifyPartner pos.toNat (fun q =>
                { q with txLineContainer :=
                    Function.update q.txLineContainer u8MessagesOnQueue item })
              let sent : Call T := Call.xQueueSendToBack p.txQueue
                ((s1._structCommPartners pos.toNat).txLineContainer u8MessagesOnQueue)
                (toTicks timeToWait)
              ⟨s1, sendOk, [take] ++ amount.2 ++ [sent, Call.xSemaphoreGive s]⟩

/-- The eviction block of `FRTTransceiver::readFromQueue` (taken when `rxQueueFull` is set):
destroy `tempContainer[0]`, rearrange when the declared length is at least 2, decrement the
occupancy index. -/
def evictOldest (self : FRTTransceiver T) (pos : Nat) : FRTTransceiver T × List (Call T) :=
  let object := (self._structCommPartners pos).tempContainer 0
  let s1 := self.modifyPartner pos (fun p =>
    { p with tempContainer := Function.update p.tempContainer 0 (self.callDestroyer object) })
  let s2 := if ((s1._structCommPartners pos).u8RxQueueLength : Int) - 1 > 0 then
      s1._rearrangeTempContainerArray (pos % 256)
    else s1
  (s2.modifyPartner pos (fun p =>
      { p with i8CurrTempcontainerPos := wrapI8 (p.i8CurrTempcontainerPos - 1) }),
    [Call.dataDestroyer 0 object])

/-- `FRTTransceiver::readFromQueue`. `takeOk` is the answer of `xSemaphoreTake`; `received` is
the envelope `xQueueReceive` copies out, `none` when it reports an empty queue. -/
def readFromQueue (self : FRTTransceiver T) (source : Nat) (blockTimeRead
    blockTimeTakeSemaphore : Int) (takeOk : Bool) (received : Option DataContainerOnQueue) :
    Outcome T Bool :=
  if self._hasDataInterpreters = false ∨ self._hasSemaphore source = false then
    ⟨self, false, []⟩
  else
    let pos := self._getCommStruct source
    if pos = -1 ∨ (self._structCommPartners pos.toNat).rxQueue = 0 then ⟨self, false, []⟩
    else
      let timeToWait := _checkWaitTime blockTimeTakeSemaphore
      if timeToWait = -2 then ⟨self, false, []⟩
      else
        let s := (self._structCommPartners pos.toNat).semaphore
        let take : Call T := Call.xSemaphoreTake s (toTicks timeToWait)
        if takeOk = false then ⟨self, false, [take]⟩
        else
          let timeToWait := _checkWaitTime blockTimeRead
          if timeToWait = -2 then ⟨self, false, [take, Call.xSemaphoreGive s]⟩
          else
            let ev : FRTTransceiver T × List (Call T) :=
              if (self._structCommPartners pos.toNat).rxQueueFull = true then
                self.evictOldest pos.toNat
              else (self, [])
            let receive : Call T :=
              Call.xQueueReceive (ev.1._structCommPartners pos.toNat).rxQueue (toTicks timeToWait)
            match received with
            | none => ⟨ev.1, false, [take] ++ ev.2 ++ [receive, Call.xSemaphoreGive s]⟩
            | some msg =>
              let s1 := ev.1.modifyPartner pos.toNat (fun p => { p with rxLineContainer := msg })
              let s2 := s1.modifyPartner pos.toNat (fun p =>
                { p with i8CurrTempcontainerPos := wrapI8 (p.i8CurrTempcontainerPos + 1) })
              let slot := (s2._structCommPartners pos.toNat).i8CurrTempcontainerPos
              let produced := s2.callAllocator (s2._structCommPartners pos.toNat).rxLineContainer
                ((s2._structCommPartners pos.toNat).tempContainer slot)
              let s3 := s2.modifyPartner pos.toNat (fun p =>
                { p with tempContainer := Function.update p.tempContainer slot produced })
              let s4 := s3.modifyPartner pos.toNat (fun p => { p with hasBufferedData := true })
              let s5 := if (s4._structCommPartners pos.toNat).i8CurrTempcontainerPos + 1
                  = ((s4._structCommPartners pos.toNat).u8RxQueueLength : Int) then
                  s4.modifyPartner pos.toNat (fun p => { p with rxQueueFull := true })
                else s4
              ⟨s5, true, [take] ++ ev.2 ++
                [receive, Call.dataAllocator msg slot produced, Call.xSemaphoreGive s]⟩

/-- `FRTTransceiver::manualDeleteAllocatedData`. -/
def manualDeleteAllocatedData (self : FRTTransceiver T) (partner : Nat) : Outcome T Unit :=
  let pos := self._getCommStruct partner
  if self._hasDataInterpreters = false ∨ pos = -1 then ⟨self, (), []⟩
  else if (self._structCommPartners pos.toNat).hasBufferedData = true then
    let object := (self._structCommPartners pos.toNat).tempContainer 0
    let s1 := self.modifyPartner pos.toNat (fun p =>
      { p with tempContainer := Function.update p.tempContainer 0 (self.callDestroyer object) })
    ⟨s1.modifyPartner pos.toNat (fun p => { p with hasBufferedData := false }), (),
      [Call.dataDestroyer 0 object]⟩
  else ⟨self, (), []⟩

/-- The loop of `FRTTransceiver::manualDeleteAllAllocatedDataForLine`: for
`u8I = 0 .. i8CurrTempcontainerPos`, `_dataDestroyer(tempContainer[u8I])`. The counter is a
`uint8_t` and the bound an `int8_t`, so the counter does not wrap. -/
def destroyAll (self : FRTTransceiver T) (pos : Nat) : FRTTransceiver T × List (Call T) :=
  (List.range ((self._structCommPartners pos).i8CurrTempcontainerPos + 1).toNat).foldl
    (fun (acc : FRTTransceiver T × List (Call T)) (u8I : Nat) =>
      let object := (acc.1._structCommPartners pos).tempContainer (u8I : Int)
      (acc.1.modifyPartner pos (fun p =>
          { p with tempContainer :=
              Function.update p.tempContainer (u8I : Int) (acc.1.callDestroyer object) }),
        acc.2 ++ [Call.dataDestroyer (u8I : Int) object]))
    (self, [])

/-- `FRTTransceiver::manualDeleteAllAllocatedDataForLine`. The guard of the source is
`(pos = this->_getCommStruct(partner) == -1)`: `==` binds tighter than `=`, so `pos` receives
the value of the comparison, `1` when the partner is unknown and `0` when it is known. -/
def manualDeleteAllAllocatedDataForLine (self : FRTTransceiver T) (partner : Nat) :
    Outcome T Unit :=
  if self._hasDataInterpreters = false then ⟨self, (), []⟩
  else
    let pos : Int := if self._getCommStruct partner = -1 then 1 else 0
    if pos ≠ 0 then ⟨self, (), []⟩
    else if (self._structCommPartners pos.toNat).hasBufferedData = true then
      let d := self.destroyAll pos.toNat
      let s1 := d.1.modifyPartner pos.toNat (fun p => { p with hasBufferedData := false })
      let s2 := s1.modifyPartner pos.toNat (fun p => { p with rxQueueFull := false })
      ⟨s2.modifyPartner pos.toNat (fun p => { p with i8CurrTempcontainerPos := -1 }), (),
        d.2⟩
    else ⟨self, (), []⟩

/-- `FRTTransceiver::hasDataFrom`. -/
def hasDataFrom (self : FRTTransceiver T) (partner : Nat) : Bool :=
  let pos := self._getCommStruct partner
  if pos = -1 then false
  else (self._structCommPartners pos.toNat).hasBufferedData

/-- `FRTTransceiver::getNewestBufferedDataFrom`. The returned pointer
`&tempContainer[i8CurrTempcontainerPos]` is the index it points at, `none` is `NULL`. -/
def getNewestBufferedDataFrom (self : FRTTransceiver T) (partner : Nat) : Option Int :=
  let pos := self._getCommStruct partner
  if pos = -1 then none
  else if (self._structCommPartners pos.toNat).hasBufferedData = true then
    some (self._structCommPartners pos.toNat).i8CurrTempcontainerPos
  else none

/-- `FRTTransceiver::getOldestBufferedDataFrom`. The returned pointer `&tempContainer[0]` is
the index it points at, `none` is `NULL`. -/
def getOldestBufferedDataFrom (self : FRTTransceiver T) (partner : Nat) : Option Int :=
  let pos := self._getCommStruct partner
  if pos = -1 then none
  else if (self._structCommPartners pos.toNat).hasBufferedData = true then some 0
  else none

/-- `FRTTransceiver::getBufferedDataFrom`. The returned pointer
`&tempContainer[u8PositionInBuffer]` is the index it points at, `none` is `NULL`. The
comparisons of the `uint8_t` position with `0` and with the `int8_t` index are made on
`int`. -/
def getBufferedDataFrom (self : FRTTransceiver T) (partner u8PositionInBuffer : Nat) :
    Option Int :=
  let pos := self._getCommStruct partner
  if pos = -1 then none
  else if (self._structCommPartners pos.toNat).hasBufferedData = true
      ∧ (u8PositionInBuffer : Int) ≥ 0
      ∧ (u8PositionInBuffer : Int) ≤ (self._structCommPartners pos.toNat).i8CurrTempcontainerPos
      then
    some (u8PositionInBuffer : Int)
  else none

/-- `FRTTransceiver::getPartnersName`. For an unknown partner the source returns `NULL` where
a `string` is expected; that path is `none` here. -/
def getPartnersName (self : FRTTransceiver T) (partner : Nat) : Option String :=
  let pos := self._getCommStruct partner
  if pos = -1 then none
  else some (self._structCommPartners pos.toNat).partnersName

/-- `FRTTransceiver::addDataAllocateCallback`. -/
def addDataAllocateCallback (self : FRTTransceiver T)
    (funcPointerCallback : Option (DataContainerOnQueue → T → T)) : FRTTransceiver T :=
  { self with _dataAllocator := funcPointerCallback }

/-- `FRTTransceiver::addDataFreeCallback`. -/
def addDataFreeCallback (self : FRTTransceiver T) (funcPointerCallback : Option (T → T)) :
    FRTTransceiver T :=
  { self with _dataDestroyer := funcPointerCallback }

end FRTTransceiver

/-- One call of the public interface, together with what the environment answers to it. -/
inductive Op (T : Type) where
  | addCommPartner (partnersAddress semaphore queueRX u8QueueLengthRx queueTX
      u8QueueLengthTx : Nat) (partnersName : String)
  | addCommQueue (partner queueRxOrTx u8QueueLength : Nat) (isTxQueue : Bool)
  | readFromQueue (source : Nat) (blockTimeRead blockTimeTakeSemaphore : Int) (takeOk : Bool)
      (received : Option DataContainerOnQueue)
  | manualDeleteAllocatedData (partner : Nat)
  | manualDeleteAllAllocatedDataForLine (partner : Nat)

/-- Whether a public call is a registration call. -/
def Op.isRegistration {T : Type} : Op T → Bool
  | Op.addCommPartner _ _ _ _ _ _ _ => true
  | _ => false

/-- The task identity a public call is made for. -/
def Op.identity {T : Type} : Op T → Nat
  | Op.addCommPartner a _ _ _ _ _ _ => a
  | Op.addCommQueue p _ _ _ => p
  | Op.readFromQueue src _ _ _ _ => src
  | Op.manualDeleteAllocatedData p => p
  | Op.manualDeleteAllAllocatedDataForLine p => p

/-- The effect of one public call: the new state and the calls it made. -/
def step {T : Type} (self : FRTTransceiver T) : Op T → FRTTransceiver T × List (Call T)
  | Op.addCommPartner a s qr lr qt lt n =>
    let r := self.addCommPartner a s qr lr qt lt n
    (r.state, r.calls)
  | Op.addCommQueue p q l t =>
    let r := self.addCommQueue p q l t
    (r.state, r.calls)
  | Op.readFromQueue src tr tl ok rcv =>
    let r := self.readFromQueue src tr tl ok rcv
    (r.state, r.calls)
  | Op.manualDeleteAllocatedData p =>
    let r := self.manualDeleteAllocatedData p
    (r.state, r.calls)
  | Op.manualDeleteAllAllocatedDataForLine p =>
    let r := self.manualDeleteAllAllocatedDataForLine p
    (r.state, r.calls)

/-- A sequence of public calls, the call lists concatenated in order. -/
def run {T : Type} (self : FRTTransceiver T) : List (Op T) → FRTTransceiver T × List (Call T)
  | [] => (self, [])
  | op :: rest =>
    let a := step self op
    let b := run a.1 rest
    (b.1, a.2 ++ b.2)

/-- The arguments of the destroy-callback invocations of a call list, in order. -/
def destroyed {T : Type} : List (Call T) → List T
  | [] => []
  | Call.dataDestroyer _ object :: rest => object :: destroyed rest
  | _ :: rest => destroyed rest

/-- The objects the allocate callback produced in a call list, in order. -/
def allocated {T : Type} : List (Call T) → List T
  | [] => []
  | Call.dataAllocator _ _ produced :: rest => produced :: allocated rest
  | _ :: rest => allocated rest

/-- The envelopes the allocate callback was handed in a call list, each with the object it
produced, in order. -/
def allocations {T : Type} : List (Call T) → List (DataContainerOnQueue × T)
  | [] => []
  | Call.dataAllocator received _ produced :: rest => (received, produced) :: allocations rest
  | _ :: rest => allocations rest

/-- The staged entries of a partner, oldest first: `tempContainer[0 .. i8CurrTempcontainerPos]`. -/
def CommunicationPartner.staged {T : Type} (p : CommunicationPartner T) : List T :=
  (List.range (p.i8CurrTempcontainerPos + 1).toNat).map
    (fun (j : Nat) => p.tempContainer (j : Int))

/-- Staged objects as terms: which envelope an object was made from, what the slot held before,
and whether the destroy callback has already run on it. -/
inductive Staged where
  | unset
  | made (received : DataContainerOnQueue) (slot : Staged)
  | released (object : Staged)
deriving DecidableEq, Repr

/-- A freshly constructed transceiver over `Staged` with both callbacks installed, each callback
being the constructor that records its invocation. -/
def symbolic (u8MaxPartners : Nat) : FRTTransceiver Staged :=
  ((FRTTransceiver.new u8MaxPartners Staged.unset).addDataAllocateCallback
    (some Staged.made)).addDataFreeCallback (some Staged.released)

/-- A transceiver over `Staged` with one partner (identity 1, lock 1, rx queue 1 of capacity 2,
tx queue 2 of capacity 2) whose staging buffer is full: it holds the objects made from the
envelopes with data 7 and 8. -/
def stagedTwo : FRTTransceiver Staged :=
  { _u8MaxPartners := 1
    _u8CurrCommPartners := 1
    _structCommPartners := fun _ =>
      { commPartner := 1
        semaphore := 1
        rxQueue := 1
        txQueue := 2
        u8RxQueueLength := 2
        u8TxQueueLength := 2
        rxLineContainer := ⟨8, 0, 0⟩
        txLineContainer := fun _ => ⟨0, 0, 0⟩
        hasBufferedData := true
        rxQueueFull := true
        i8CurrTempcontainerPos := 1
        tempContainer := fun j =>
          if j = 0 then Staged.made ⟨7, 0, 0⟩ Staged.unset
          else if j = 1 then Staged.made ⟨8, 0, 0⟩ Staged.unset
          else Staged.unset
        partnersName := "p" }
    _dataAllocator := some Staged.made
    _dataDestroyer := some Staged.released }

/-- Calls into the lock primitive. -/
def isLockCall {T : Type} : Call T → Bool
  | Call.xSemaphoreTake _ _ => true
  | Call.xSemaphoreGive _ => true
  | _ => false

/-- Calls into the queue primitive. -/
def isQueueCall {T : Type} : Call T → Bool
  | Call.xQueueReceive _ _ => true
  | Call.xQueueSendToBack _ _ _ => true
  | Call.uxQueueMessagesWaiting _ => true
  | _ => false

/-- Enqueue calls. -/
def isSendCall {T : Type} : Call T → Bool
  | Call.xQueueSendToBack _ _ _ => true
  | _ => false

/-- Lock releases. -/
def isGiveCall {T : Type} : Call T → Bool
  | Call.xSemaphoreGive _ => true
  | _ => false

end FRT

/-! ## Theorems -/

namespace FRT

open FRTTransceiver

variable {T : Type}

/-! ### Updates of a partner record, the shifting loop, the lookup -/

/-- Inside the `int8_t` range the conversion changes nothing. -/
theorem wrapI8_of_range (x : Int) (h1 : -128 ≤ x) (h2 : x ≤ 127) : wrapI8 x = x := by
  unfold wrapI8
  omega

/-- The sentinel and every non-negative time pass the validator unchanged. -/
theorem checkWaitTime_of_valid (t : Int) (h : -1 ≤ t) : _checkWaitTime t = t := by
  unfold _checkWaitTime FRTTRANSCEIVER_WAITMAX
  rw [if_neg]
  omega

/-- Every time below the sentinel is answered with the invalid marker. -/
theorem checkWaitTime_of_invalid (t : Int) (h : t < -1) : _checkWaitTime t = -2 := by
  unfold _checkWaitTime FRTTRANSCEIVER_WAITMAX
  rw [if_pos]
  omega

/-- The record at `pos` after an assignment to it. -/
@[simp] theorem modifyPartner_same (self : FRTTransceiver T) (pos : Nat)
    (f : CommunicationPartner T → CommunicationPartner T) :
    (self.modifyPartner pos f)._structCommPartners pos = f (self._structCommPartners pos) := by
  simp [modifyPartner]

/-- An assignment to the record at `pos` leaves every other record alone. -/
theorem modifyPartner_other (self : FRTTransceiver T) (pos i : Nat)
    (f : CommunicationPartner T → CommunicationPartner T) (h : i ≠ pos) :
    (self.modifyPartner pos f)._structCommPartners i = self._structCommPartners i := by
  simp [modifyPartner, Function.update_noteq h]

/-- An assignment to a record keeps the partner count. -/
@[simp] theorem modifyPartner_count (self : FRTTransceiver T) (pos : Nat)
    (f : CommunicationPartner T → CommunicationPartner T) :
    (self.modifyPartner pos f)._u8CurrCommPartners = self._u8CurrCommPartners := rfl

/-- An assignment to a record keeps the allocate callback. -/
@[simp] theorem modifyPartner_allocator (self : FRTTransceiver T) (pos : Nat)
    (f : CommunicationPartner T → CommunicationPartner T) :
    (self.modifyPartner pos f)._dataAllocator = self._dataAllocator := rfl

/-- An assignment to a record keeps the destroy callback. -/
@[simp] theorem modifyPartner_destroyer (self : FRTTransceiver T) (pos : Nat)
    (f : CommunicationPartner T → CommunicationPartner T) :
    (self.modifyPartner pos f)._dataDestroyer = self._dataDestroyer := rfl

/-- Two assignments to the same record compose. -/
theorem modifyPartner_modifyPartner (self : FRTTransceiver T) (pos : Nat)
    (f g : CommunicationPartner T → CommunicationPartner T) :
    (self.modifyPartner pos f).modifyPartner pos g = self.modifyPartner pos (fun p => g (f p)) := by
  simp [modifyPartner]

/-- An assignment that rewrites the record with its own content changes nothing. -/
theorem modifyPartner_id (self : FRTTransceiver T) (pos : Nat)
    (f : CommunicationPartner T → CommunicationPartner T)
    (h : f (self._structCommPartners pos) = self._structCommPartners pos) :
    self.modifyPartner pos f = self := by
  cases self
  simp only [modifyPartner] at h ⊢
  rw [h, Function.update_eq_self]

/-- The shifting loop run for `n` rounds moves the entries at 1..n one position down. -/
theorem rearrange_fold (self : FRTTransceiver T) (pos : Nat) (n : Nat) :
    (List.range' 1 n).foldl
      (fun (acc : FRTTransceiver T) (u8I : Nat) => acc.modifyPartner pos (fun p =>
        { p with tempContainer :=
            Function.update p.tempContainer ((u8I : Int) - 1) (p.tempContainer (u8I : Int)) }))
      self
    = self.modifyPartner pos (fun p =>
        { p with tempContainer := fun j =>
            if 0 ≤ j ∧ j < (n : Int) then p.tempContainer (j + 1) else p.tempContainer j }) := by
  induction n with
  | zero =>
    simp only [List.range'_zero, List.foldl_nil]
    symm
    apply modifyPartner_id
    have : (fun j : Int => if 0 ≤ j ∧ j < ((0 : Nat) : Int) then
        (self._structCommPartners pos).tempContainer (j + 1)
        else (self._structCommPartners pos).tempContainer j)
        = (self._structCommPartners pos).tempContainer := by
      funext j
      rw [if_neg]
      omega
    rw [this]
  | succ k ih =>
    rw [List.range'_concat, List.foldl_append, ih]
    simp only [List.foldl_cons, List.foldl_nil]
    rw [modifyPartner_modifyPartner]
    congr 1
    funext p
    congr 1
    funext j
    have e : ((1 + 1 * k : Nat) : Int) - 1 = (k : Int) := by omega
    have e2 : ((1 + 1 * k : Nat) : Int) = (k : Int) + 1 := by omega
    dsimp only
    rw [e, e2]
    by_cases hj : j = (k : Int)
    · subst hj
      rw [Function.update_same, if_neg (by omega), if_pos (by omega)]
    · rw [Function.update_noteq hj]
      by_cases h2 : 0 ≤ j ∧ j < (k : Int)
      · rw [if_pos h2, if_pos]
        omega
      · rw [if_neg h2, if_neg]
        omega


/-- A position found by the lookup lies below the partner count. -/
theorem getCommStruct_lt (self : FRTTransceiver T) (partner pos : Nat)
    (h : self._getCommStruct partner = (pos : Int)) : pos < self._u8CurrCommPartners := by
  unfold _getCommStruct at h
  by_cases h0 : partner = 0
  · rw [if_pos h0] at h
    omega
  · rw [if_neg h0] at h
    cases hf : (List.range self._u8CurrCommPartners).find?
        (fun i => decide ((self._structCommPartners i).commPartner = partner)) with
    | none =>
      rw [hf] at h
      simp only at h
      omega
    | some i =>
      rw [hf] at h
      simp only at h
      have hm := List.mem_of_find?_eq_some hf
      rw [List.mem_range] at hm
      omega

/-- A partner that is found and holds a lock passes `_hasSemaphore`. -/
theorem hasSemaphore_of_found (self : FRTTransceiver T) (partner pos : Nat)
    (h : self._getCommStruct partner = (pos : Int))
    (hs : (self._structCommPartners pos).semaphore ≠ 0) : self._hasSemaphore partner = true := by
  unfold _hasSemaphore
  simp [h, hs]

/-- With both callbacks installed `_hasDataInterpreters` answers true. -/
theorem hasDataInterpreters_of_set (self : FRTTransceiver T)
    (allocate : DataContainerOnQueue → T → T) (destroy : T → T)
    (hA : self._dataAllocator = some allocate) (hD : self._dataDestroyer = some destroy) :
    self._hasDataInterpreters = true := by
  simp [_hasDataInterpreters, hA, hD]

/-- Assignments that agree on the record at `pos` give the same state. -/
theorem modifyPartner_congr (self : FRTTransceiver T) (pos : Nat)
    (f g : CommunicationPartner T → CommunicationPartner T)
    (h : f (self._structCommPartners pos) = g (self._structCommPartners pos)) :
    self.modifyPartner pos f = self.modifyPartner pos g := by
  simp only [modifyPartner, h]

/-- The eviction block on a full staging buffer of `n` entries: the oldest entry is handed to
the destroy callback, the others move one position down, the occupancy index becomes `n - 2`. -/
theorem evictOldest_full (self : FRTTransceiver T) (destroy : T → T) (pos n : Nat)
    (hD : self._dataDestroyer = some destroy) (hpos : pos < 256)
    (hn : 1 ≤ n) (hn128 : n ≤ 128)
    (hcap : (self._structCommPartners pos).u8RxQueueLength = n)
    (hocc : (self._structCommPartners pos).i8CurrTempcontainerPos = (n : Int) - 1) :
    self.evictOldest pos
      = (self.modifyPartner pos (fun p =>
          { p with
            tempContainer := fun j =>
              if 0 ≤ j ∧ j < (n : Int) - 1 then p.tempContainer (j + 1)
              else if j = 0 then destroy (p.tempContainer 0) else p.tempContainer j
            i8CurrTempcontainerPos := (n : Int) - 2 }),
        [Call.dataDestroyer 0 ((self._structCommPartners pos).tempContainer 0)]) := by
  have hmod : pos % 256 = pos := Nat.mod_eq_of_lt hpos
  have hw1 : wrapI8 ((n : Int) - 1 - 1) = (n : Int) - 2 := by
    rw [wrapI8_of_range] <;> omega
  unfold evictOldest
  simp only [modifyPartner_same, hcap, hmod, callDestroyer, hD]
  by_cases h1 : n = 1
  · subst h1
    rw [if_neg (by omega), modifyPartner_modifyPartner]
    congr 1
    apply modifyPartner_congr
    simp only [hocc, hw1]
    congr 1
    funext j
    rw [if_neg (by omega)]
    by_cases hj : j = 0
    · subst hj
      simp
    · rw [if_neg hj, Function.update_noteq hj]
  · rw [if_pos (by omega)]
    unfold _rearrangeTempContainerArray
    simp only [modifyPartner_same, hocc]
    rw [rearrange_fold, modifyPartner_modifyPartner, modifyPartner_modifyPartner]
    congr 1
    apply modifyPartner_congr
    simp only [hocc, hw1]
    congr 1
    funext j
    have ht : (((n : Int) - 1).toNat : Int) = (n : Int) - 1 := by omega
    rw [ht]
    by_cases h2 : 0 ≤ j ∧ j < (n : Int) - 1
    · rw [if_pos h2, if_pos h2, Function.update_noteq (by omega)]
    · rw [if_neg h2, if_neg h2]
      have hj : j ≠ 0 := by omega
      rw [if_neg hj, Function.update_noteq hj]


/-- The validator either rejects a time below the sentinel or returns the time itself. -/
theorem checkWaitTime_cases (t : Int) :
    (t < -1 ∧ _checkWaitTime t = -2) ∨ (-1 ≤ t ∧ _checkWaitTime t = t) := by
  by_cases h : t < -1
  · exact Or.inl ⟨h, checkWaitTime_of_invalid t h⟩
  · exact Or.inr ⟨by omega, checkWaitTime_of_valid t (by omega)⟩

/-- The eviction block makes one call: the destroy callback on slot 0. -/
@[simp] theorem evictOldest_calls (self : FRTTransceiver T) (pos : Nat) :
    (self.evictOldest pos).2
      = [Call.dataDestroyer 0 ((self._structCommPartners pos).tempContainer 0)] := rfl

/-- The paths through `writeToQueue`. -/
theorem writeToQueue_paths (maxElements : Nat) (self : FRTTransceiver T) (destination u8DataType
    data : Nat) (blockTimeWrite blockTimeTakeSemaphore : Int) (additionalData : Nat)
    (takeOk : Bool) (depth : Nat) (sendOk : Bool) :
    let w := self.writeToQueue maxElements destination u8DataType data blockTimeWrite
      blockTimeTakeSemaphore additionalData takeOk depth sendOk
    let pos := self._getCommStruct destination
    let p := self._structCommPartners pos.toNat
    let take : Call T := Call.xSemaphoreTake p.semaphore (toTicks blockTimeTakeSemaphore)
    let give : Call T := Call.xSemaphoreGive p.semaphore
    let item : DataContainerOnQueue := ⟨data, u8DataType, additionalData⟩
    let passes := self._hasDataInterpreters = true ∧ self._hasSemaphore destination = true
      ∧ pos ≠ -1 ∧ p.txQueue ≠ 0 ∧ _checkValidQueueLength maxElements p.u8TxQueueLength = true
      ∧ data ≠ 0 ∧ -1 ≤ blockTimeTakeSemaphore
    (¬ passes ∧ w = ⟨self, false, []⟩)
    ∨ (passes ∧ takeOk = false ∧ w = ⟨self, false, [take]⟩)
    ∨ (passes ∧ takeOk = true ∧ blockTimeWrite < -1 ∧ w = ⟨self, false, [take, give]⟩)
    ∨ (passes ∧ takeOk = true ∧ -1 ≤ blockTimeWrite ∧ p.u8TxQueueLength = depth % 256
        ∧ w = ⟨self, false, [take, Call.uxQueueMessagesWaiting p.txQueue, give]⟩)
    ∨ (passes ∧ takeOk = true ∧ -1 ≤ blockTimeWrite ∧ p.u8TxQueueLength ≠ depth % 256
        ∧ w = ⟨self.modifyPartner pos.toNat (fun q =>
              { q with txLineContainer := Function.update q.txLineContainer (depth % 256) item }),
            sendOk,
            [take, Call.uxQueueMessagesWaiting p.txQueue,
              Call.xQueueSendToBack p.txQueue item (toTicks blockTimeWrite), give]⟩) := by
  intro w pos p take give item passes
  have hdm : (((depth : Int) % 256).toNat) = depth % 256 := by omega
  by_cases h1 : self._hasDataInterpreters = false ∨ self._hasSemaphore destination = false
      ∨ pos = -1
  · left
    refine ⟨?_, ?_⟩
    · intro hp
      simp only [passes] at hp
      rcases h1 with h | h | h
      · rw [hp.1] at h; exact Bool.noConfusion h
      · rw [hp.2.1] at h; exact Bool.noConfusion h
      · exact hp.2.2.1 h
    · simp only [w, writeToQueue]
      rw [if_pos h1]
  · by_cases h2 : p.txQueue = 0 ∨ _checkValidQueueLength maxElements p.u8TxQueueLength = false
        ∨ data = 0
    · left
      refine ⟨?_, ?_⟩
      · intro hp
        simp only [passes] at hp
        rcases h2 with h | h | h
        · exact hp.2.2.2.1 h
        · rw [hp.2.2.2.2.1] at h; exact Bool.noConfusion h
        · exact hp.2.2.2.2.2.1 h
      · simp only [w, writeToQueue]
        rw [if_neg h1, if_pos h2]
    · have hbase : self._hasDataInterpreters = true ∧ self._hasSemaphore destination = true
          ∧ pos ≠ -1 ∧ p.txQueue ≠ 0
          ∧ _checkValidQueueLength maxElements p.u8TxQueueLength = true ∧ data ≠ 0 := by
        simp only [not_or, Bool.not_eq_false] at h1 h2
        exact ⟨h1.1, h1.2.1, h1.2.2, h2.1, h2.2.1, h2.2.2⟩
      rcases checkWaitTime_cases blockTimeTakeSemaphore with ⟨hl, hl'⟩ | ⟨hl, hl'⟩
      · left
        refine ⟨?_, ?_⟩
        · intro hp
          simp only [passes] at hp
          omega
        · simp only [w, writeToQueue]
          rw [if_neg h1, if_neg h2, if_pos hl']
      · have hl2 : ¬ (_checkWaitTime blockTimeTakeSemaphore = -2) := by omega
        have hpass : passes := ⟨hbase.1, hbase.2.1, hbase.2.2.1, hbase.2.2.2.1,
          hbase.2.2.2.2.1, hbase.2.2.2.2.2, hl⟩
        right
        cases takeOk with
        | false =>
          left
          refine ⟨hpass, rfl, ?_⟩
          simp only [w, writeToQueue]
          rw [if_neg h1, if_neg h2, if_neg hl2, if_pos True.intro, hl']
        | true =>
          right
          have ht : ¬ (true = false) := Bool.noConfusion
          rcases checkWaitTime_cases blockTimeWrite with ⟨hb, hb'⟩ | ⟨hb, hb'⟩
          · left
            refine ⟨hpass, rfl, hb, ?_⟩
            simp only [w, writeToQueue]
            rw [if_neg h1, if_neg h2, if_neg hl2, if_neg ht, if_pos hb', hl']
          · right
            have hb2 : ¬ (_checkWaitTime blockTimeWrite = -2) := by omega
            have hq : ¬ ¬ p.txQueue ≠ 0 := not_not.mpr hbase.2.2.2.1
            have hamount : (_getAmountOfMessages p.txQueue depth : Int × List (Call T))
                = ((depth : Int), [Call.uxQueueMessagesWaiting p.txQueue]) := by
              unfold _getAmountOfMessages
              rw [if_pos hbase.2.2.2.1]
            by_cases hfull : p.u8TxQueueLength = depth % 256
            · left
              refine ⟨hpass, rfl, hb, hfull, ?_⟩
              simp only [w, writeToQueue]
              rw [if_neg h1, if_neg h2, if_neg hl2, if_neg ht, if_neg hb2]
              simp only [hamount, hdm]
              rw [if_pos hfull, hl']
              rfl
            · right
              refine ⟨hpass, rfl, hb, hfull, ?_⟩
              simp only [w, writeToQueue]
              rw [if_neg h1, if_neg h2, if_neg hl2, if_neg ht, if_neg hb2]
              simp only [hamount, hdm]
              rw [if_neg hfull, hl', hb']
              simp only [modifyPartner_same, Function.update_same]
              rfl

/-- The paths through `readFromQueue`. -/
theorem readFromQueue_paths (self : FRTTransceiver T) (source : Nat) (blockTimeRead
    blockTimeTakeSemaphore : Int) (takeOk : Bool) (received : Option DataContainerOnQueue) :
    let r := self.readFromQueue source blockTimeRead blockTimeTakeSemaphore takeOk received
    let pos := self._getCommStruct source
    let p := self._structCommPartners pos.toNat
    let take : Call T := Call.xSemaphoreTake p.semaphore (toTicks blockTimeTakeSemaphore)
    let give : Call T := Call.xSemaphoreGive p.semaphore
    let ev : FRTTransceiver T × List (Call T) :=
      if p.rxQueueFull = true then self.evictOldest pos.toNat else (self, [])
    let receive : Call T :=
      Call.xQueueReceive (ev.1._structCommPartners pos.toNat).rxQueue (toTicks blockTimeRead)
    let passes := self._hasDataInterpreters = true ∧ self._hasSemaphore source = true
      ∧ pos ≠ -1 ∧ p.rxQueue ≠ 0 ∧ -1 ≤ blockTimeTakeSemaphore
    (¬ passes ∧ r = ⟨self, false, []⟩)
    ∨ (passes ∧ takeOk = false ∧ r = ⟨self, false, [take]⟩)
    ∨ (passes ∧ takeOk = true ∧ blockTimeRead < -1 ∧ r = ⟨self, false, [take, give]⟩)
    ∨ (passes ∧ takeOk = true ∧ -1 ≤ blockTimeRead ∧ received = none
        ∧ r = ⟨ev.1, false, [take] ++ ev.2 ++ [receive, give]⟩)
    ∨ (passes ∧ takeOk = true ∧ -1 ≤ blockTimeRead ∧ ∃ msg slot produced,
        received = some msg ∧ r.ret = true
        ∧ r.calls = [take] ++ ev.2 ++ [receive, Call.dataAllocator msg slot produced, give]) := by
  intro r pos p take give ev receive passes
  by_cases h1 : self._hasDataInterpreters = false ∨ self._hasSemaphore source = false
  · left
    refine ⟨?_, ?_⟩
    · intro hp
      simp only [passes] at hp
      rcases h1 with h | h
      · rw [hp.1] at h; exact Bool.noConfusion h
      · rw [hp.2.1] at h; exact Bool.noConfusion h
    · simp only [r, readFromQueue]
      rw [if_pos h1]
  · by_cases h2 : pos = -1 ∨ p.rxQueue = 0
    · left
      refine ⟨?_, ?_⟩
      · intro hp
        simp only [passes] at hp
        rcases h2 with h | h
        · exact hp.2.2.1 h
        · exact hp.2.2.2.1 h
      · simp only [r, readFromQueue]
        rw [if_neg h1, if_pos h2]
    · have hbase : self._hasDataInterpreters = true ∧ self._hasSemaphore source = true
          ∧ pos ≠ -1 ∧ p.rxQueue ≠ 0 := by
        simp only [not_or, Bool.not_eq_false] at h1 h2
        exact ⟨h1.1, h1.2, h2.1, h2.2⟩
      rcases checkWaitTime_cases blockTimeTakeSemaphore with ⟨hl, hl'⟩ | ⟨hl, hl'⟩
      · left
        refine ⟨?_, ?_⟩
        · intro hp
          simp only [passes] at hp
          omega
        · simp only [r, readFromQueue]
          rw [if_neg h1, if_neg h2, if_pos hl']
      · have hl2 : ¬ (_checkWaitTime blockTimeTakeSemaphore = -2) := by omega
        have hpass : passes := ⟨hbase.1, hbase.2.1, hbase.2.2.1, hbase.2.2.2, hl⟩
        right
        cases takeOk with
        | false =>
          left
          refine ⟨hpass, rfl, ?_⟩
          simp only [r, readFromQueue]
          rw [if_neg h1, if_neg h2, if_neg hl2, if_pos True.intro, hl']
        | true =>
          right
          have ht : ¬ (true = false) := Bool.noConfusion
          rcases checkWaitTime_cases blockTimeRead with ⟨hb, hb'⟩ | ⟨hb, hb'⟩
          · left
            refine ⟨hpass, rfl, hb, ?_⟩
            simp only [r, readFromQueue]
            rw [if_neg h1, if_neg h2, if_neg hl2, if_neg ht, if_pos hb', hl']
          · right
            have hb2 : ¬ (_checkWaitTime blockTimeRead = -2) := by omega
            cases received with
            | none =>
              left
              refine ⟨hpass, rfl, hb, rfl, ?_⟩
              simp only [r, readFromQueue]
              rw [if_neg h1, if_neg h2, if_neg hl2, if_neg ht, if_neg hb2, hl', hb']
            | some msg =>
              right
              refine ⟨hpass, rfl, hb, ?_⟩
              refine Exists.intro msg ?_
              apply Exists.intro
              apply Exists.intro
              refine ⟨rfl, ?_, ?_⟩
              · simp only [r, readFromQueue]
                rw [if_neg h1, if_neg h2, if_neg hl2, if_neg ht, if_neg hb2]
              · simp only [r, readFromQueue]
                rw [if_neg h1, if_neg h2, if_neg hl2, if_neg ht, if_neg hb2, hl', hb']

/-! ### The guards -/

/-- What `_hasSemaphore` tests: the partner is found and its record holds a lock. -/
theorem hasSemaphore_iff (self : FRTTransceiver T) (partner : Nat) :
    self._hasSemaphore partner = true
      ↔ self._getCommStruct partner ≠ -1
        ∧ (self._structCommPartners (self._getCommStruct partner).toNat).semaphore ≠ 0 := by
  unfold _hasSemaphore
  by_cases h : self._getCommStruct partner = -1
  · simp [h]
  · by_cases hs : (self._structCommPartners (self._getCommStruct partner).toNat).semaphore = 0
    · simp [h, hs]
    · simp [h, hs]

/-- What `_hasDataInterpreters` tests: both callback slots are filled. -/
theorem hasDataInterpreters_iff (self : FRTTransceiver T) :
    self._hasDataInterpreters = true
      ↔ self._dataAllocator.isSome = true ∧ self._dataDestroyer.isSome = true := by
  simp [_hasDataInterpreters]

/-- What `_checkValidQueueLength` tests: the length lies in `(0, maxElements]`. -/
theorem checkValidQueueLength_iff (maxElements u8QueueLength : Nat) :
    _checkValidQueueLength maxElements u8QueueLength = true
      ↔ 0 < u8QueueLength ∧ u8QueueLength ≤ maxElements := by
  simp [_checkValidQueueLength]
  omega

/-- The last element of a list that ends in two given elements. -/
theorem getLast?_append_two {α : Type} (l : List α) (a b : α) :
    (l ++ [a, b]).getLast? = some b := by
  rw [show l ++ [a, b] = (l ++ [a]) ++ [b] by simp]
  exact List.getLast?_concat _

/-- The last element of a list that ends in three given elements. -/
theorem getLast?_append_three {α : Type} (l : List α) (a b c : α) :
    (l ++ [a, b, c]).getLast? = some c := by
  rw [show l ++ [a, b, c] = (l ++ [a, b]) ++ [c] by simp]
  exact List.getLast?_concat _

/-- The record of `stagedTwo` is the one `symbolic 1` reaches by registering partner 1 and
receiving the envelopes 7 and 8. -/
theorem stagedTwo_reached :
    (let s := (run (symbolic 1) [Op.addCommPartner 1 1 1 2 2 2 "p",
        Op.readFromQueue 1 0 0 true (some ⟨7, 0, 0⟩),
        Op.readFromQueue 1 0 0 true (some ⟨8, 0, 0⟩)]).1
     let p := s._structCommPartners 0
     let q := stagedTwo._structCommPartners 0
     s._u8MaxPartners = stagedTwo._u8MaxPartners
     ∧ s._u8CurrCommPartners = stagedTwo._u8CurrCommPartners
     ∧ p.commPartner = q.commPartner ∧ p.semaphore = q.semaphore
     ∧ p.rxQueue = q.rxQueue ∧ p.txQueue = q.txQueue
     ∧ p.u8RxQueueLength = q.u8RxQueueLength ∧ p.u8TxQueueLength = q.u8TxQueueLength
     ∧ p.rxLineContainer = q.rxLineContainer
     ∧ p.hasBufferedData = q.hasBufferedData ∧ p.rxQueueFull = q.rxQueueFull
     ∧ p.i8CurrTempcontainerPos = q.i8CurrTempcontainerPos
     ∧ p.tempContainer 0 = q.tempContainer 0 ∧ p.tempContainer 1 = q.tempContainer 1
     ∧ p.partnersName = q.partnersName) := by
  decide!

/-! ### The registry, the receive path and the frame of every public call -/

/-- The first match of a scan depends only on what the test answers on the scanned list. -/
theorem find?_congr_on {α : Type} (l : List α) (p q : α → Bool)
    (h : ∀ x ∈ l, p x = q x) : l.find? p = l.find? q := by
  induction l with
  | nil => rfl
  | cons a t ih =>
    have ha : p a = q a := h a (List.mem_cons_self a t)
    have ht : t.find? p = t.find? q := ih (fun x hx => h x (List.mem_cons_of_mem a hx))
    rw [List.find?_cons, List.find?_cons, ha, ht]

/-- The lookup reads only the partner count and the identities below it. -/
theorem getCommStruct_congr (s t : FRTTransceiver T) (partner : Nat)
    (hc : t._u8CurrCommPartners = s._u8CurrCommPartners)
    (hp : ∀ i, i < s._u8CurrCommPartners →
      (t._structCommPartners i).commPartner = (s._structCommPartners i).commPartner) :
    t._getCommStruct partner = s._getCommStruct partner := by
  unfold _getCommStruct
  rw [hc]
  have hf : (List.range s._u8CurrCommPartners).find?
      (fun i => decide ((t._structCommPartners i).commPartner = partner))
      = (List.range s._u8CurrCommPartners).find?
      (fun i => decide ((s._structCommPartners i).commPartner = partner)) := by
    apply find?_congr_on
    intro x hx
    rw [List.mem_range] at hx
    rw [hp x hx]
  rw [hf]

/-- The lookup answers not-found exactly for the null identity and for an identity no record
below the partner count holds. -/
theorem getCommStruct_eq_neg_one_iff (self : FRTTransceiver T) (partner : Nat) :
    self._getCommStruct partner = -1
      ↔ partner = 0 ∨ ∀ i, i < self._u8CurrCommPartners →
          (self._structCommPartners i).commPartner ≠ partner := by
  unfold _getCommStruct
  by_cases h0 : partner = 0
  · rw [if_pos h0]
    exact ⟨fun _ => Or.inl h0, fun _ => rfl⟩
  · rw [if_neg h0]
    cases hf : (List.range self._u8CurrCommPartners).find?
        (fun i => decide ((self._structCommPartners i).commPartner = partner)) with
    | none =>
      simp only [true_iff]
      right
      rw [List.find?_range_eq_none] at hf
      intro i hi
      have := hf i hi
      simpa using this
    | some i =>
      simp only
      constructor
      · intro h
        omega
      · rintro (h | h)
        · exact absurd h h0
        · rw [List.find?_range_eq_some] at hf
          have h1 := hf.1
          have h2 := hf.2.1
          rw [List.mem_range] at h2
          have := h i h2
          simp at h1
          exact absurd h1 this

/-- The lookup answers `pos` exactly when `pos` is the first position below the partner count
whose record holds the (non-null) identity. -/
theorem getCommStruct_eq_iff (self : FRTTransceiver T) (partner pos : Nat) :
    self._getCommStruct partner = (pos : Int)
      ↔ partner ≠ 0 ∧ pos < self._u8CurrCommPartners
        ∧ (self._structCommPartners pos).commPartner = partner
        ∧ ∀ j, j < pos → (self._structCommPartners j).commPartner ≠ partner := by
  unfold _getCommStruct
  by_cases h0 : partner = 0
  · rw [if_pos h0]
    constructor
    · intro h
      omega
    · intro h
      exact absurd h0 h.1
  · rw [if_neg h0]
    cases hf : (List.range self._u8CurrCommPartners).find?
        (fun i => decide ((self._structCommPartners i).commPartner = partner)) with
    | none =>
      simp only
      rw [List.find?_range_eq_none] at hf
      constructor
      · intro h
        omega
      · rintro ⟨_, h1, h2, _⟩
        have := hf pos h1
        simp at this
        exact absurd h2 this
    | some i =>
      simp only
      rw [List.find?_range_eq_some] at hf
      obtain ⟨h1, h2, h3⟩ := hf
      rw [List.mem_range] at h2
      simp at h1
      constructor
      · intro h
        have hi : i = pos := by omega
        subst hi
        refine ⟨h0, h2, h1, fun j hj => ?_⟩
        have := h3 j hj
        simpa using this
      · rintro ⟨_, h4, h5, h6⟩
        have hi : i = pos := by
          rcases Nat.lt_trichotomy i pos with hlt | heq | hgt
          · exact absurd h1 (h6 i hlt)
          · exact heq
          · have := h3 pos hgt
            simp at this
            exact absurd h5 this
        rw [hi]

/-- The paths through `addCommPartner`. -/
theorem addCommPartner_paths (self : FRTTransceiver T) (partnersAddress semaphore queueRX
    u8QueueLengthRx queueTX u8QueueLengthTx : Nat) (partnersName : String) :
    (let r := self.addCommPartner partnersAddress semaphore queueRX u8QueueLengthRx queueTX
      u8QueueLengthTx partnersName
    let cur := self._u8CurrCommPartners
    ((cur + 1 > self._u8MaxPartners ∨ partnersAddress = 0) ∧ r = ⟨self, false, []⟩)
    ∨ (cur + 1 ≤ self._u8MaxPartners ∧ partnersAddress ≠ 0 ∧ semaphore = 0
        ∧ r = ⟨self.modifyPartner cur (fun p => { p with commPartner := partnersAddress }),
            false, []⟩)
    ∨ (cur + 1 ≤ self._u8MaxPartners ∧ partnersAddress ≠ 0 ∧ semaphore ≠ 0
        ∧ r.ret = true ∧ r.calls = []
        ∧ r.state._u8CurrCommPartners = (cur + 1) % 256
        ∧ r.state._u8MaxPartners = self._u8MaxPartners
        ∧ r.state._dataAllocator = self._dataAllocator
        ∧ r.state._dataDestroyer = self._dataDestroyer
        ∧ (∀ i, i ≠ cur → r.state._structCommPartners i = self._structCommPartners i)
        ∧ (r.state._structCommPartners cur).commPartner = partnersAddress
        ∧ (r.state._structCommPartners cur).semaphore = semaphore
        ∧ (r.state._structCommPartners cur).partnersName = partnersName)) := by
  intro r cur
  by_cases h1 : cur + 1 > self._u8MaxPartners
  · left
    refine ⟨Or.inl h1, ?_⟩
    simp only [r, addCommPartner]
    rw [if_pos h1]
  · by_cases h2 : partnersAddress = 0
    · left
      refine ⟨Or.inr h2, ?_⟩
      simp only [r, addCommPartner]
      rw [if_neg h1, if_pos h2]
    · right
      by_cases h3 : semaphore = 0
      · left
        refine ⟨by omega, h2, h3, ?_⟩
        simp only [r, addCommPartner]
        rw [if_neg h1, if_neg h2, if_pos h3]
      · right
        refine ⟨by omega, h2, h3, ?_⟩
        simp only [r, addCommPartner]
        rw [if_neg h1, if_neg h2, if_neg h3]
        by_cases h4 : queueRX = 0 <;> by_cases h5 : queueTX = 0
        all_goals
          simp only [h4, h5, ne_eq, not_true_eq_false, not_false_eq_true, if_true, if_false,
            modifyPartner_same, modifyPartner_count, modifyPartner_allocator,
            modifyPartner_destroyer]
          refine ⟨trivial, trivial, trivial, ?_, trivial, trivial, fun i hi => ?_, trivial,
            trivial, trivial⟩
          · rfl
          · simp only [modifyPartner_other _ _ _ _ hi]

/-- The state and the calls of a `readFromQueue` that passes its checks, acquires the lock and
dequeues `msg`: after the eviction block (if taken) the record receives the envelope, the
incremented occupancy index, the allocated object in the slot of that index, `hasBufferedData`,
and `rxQueueFull` when the index plus one reaches the declared capacity. -/
theorem readFromQueue_success (self : FRTTransceiver T) (source : Nat) (blockTimeRead
    blockTimeTakeSemaphore : Int) (msg : DataContainerOnQueue)
    (hI : self._hasDataInterpreters = true) (hS : self._hasSemaphore source = true)
    (hpos : self._getCommStruct source ≠ -1)
    (hrx : (self._structCommPartners (self._getCommStruct source).toNat).rxQueue ≠ 0)
    (hl : -1 ≤ blockTimeTakeSemaphore) (hb : -1 ≤ blockTimeRead) :
    (let r := self.readFromQueue source blockTimeRead blockTimeTakeSemaphore true (some msg)
    let pos := (self._getCommStruct source).toNat
    let p := self._structCommPartners pos
    let ev : FRTTransceiver T × List (Call T) :=
      if p.rxQueueFull = true then self.evictOldest pos else (self, [])
    let e := ev.1._structCommPartners pos
    let slot := wrapI8 (e.i8CurrTempcontainerPos + 1)
    let produced := ev.1.callAllocator msg (e.tempContainer slot)
    r.ret = true
    ∧ r.calls = [Call.xSemaphoreTake p.semaphore (toTicks blockTimeTakeSemaphore)] ++ ev.2
        ++ [Call.xQueueReceive e.rxQueue (toTicks blockTimeRead),
            Call.dataAllocator msg slot produced, Call.xSemaphoreGive p.semaphore]
    ∧ r.state = ev.1.modifyPartner pos (fun q =>
        { q with
          rxLineContainer := msg
          i8CurrTempcontainerPos := slot
          tempContainer := Function.update e.tempContainer slot produced
          hasBufferedData := true
          rxQueueFull := if slot + 1 = (e.u8RxQueueLength : Int) then true
            else e.rxQueueFull })) := by
  intro r pos p ev e slot produced
  have h1 : ¬ (self._hasDataInterpreters = false ∨ self._hasSemaphore source = false) := by
    rw [hI, hS]
    simp
  have h2 : ¬ (self._getCommStruct source = -1
      ∨ (self._structCommPartners (self._getCommStruct source).toNat).rxQueue = 0) := by
    rintro (h | h)
    · exact hpos h
    · exact hrx h
  have hl' := checkWaitTime_of_valid _ hl
  have hb' := checkWaitTime_of_valid _ hb
  have hl2 : ¬ (_checkWaitTime blockTimeTakeSemaphore = -2) := by omega
  have hb2 : ¬ (_checkWaitTime blockTimeRead = -2) := by omega
  have ht : ¬ (true = false) := Bool.noConfusion
  refine ⟨?_, ?_, ?_⟩
  · simp only [r, readFromQueue]
    rw [if_neg h1, if_neg h2, if_neg hl2, if_neg ht, if_neg hb2]
  · simp only [r, readFromQueue]
    rw [if_neg h1, if_neg h2, if_neg hl2, if_neg ht, if_neg hb2, hl', hb']
    simp only [modifyPartner_same, modifyPartner_allocator, callAllocator]
    rfl
  · simp only [r, readFromQueue]
    rw [if_neg h1, if_neg h2, if_neg hl2, if_neg ht, if_neg hb2]
    simp only [modifyPartner_same, modifyPartner_modifyPartner, modifyPartner_allocator,
      callAllocator]
    by_cases hc : slot + 1 = (e.u8RxQueueLength : Int)
    · rw [if_pos hc]
      apply modifyPartner_congr
      simp only [if_pos hc]
      rfl
    · rw [if_neg hc]
      apply modifyPartner_congr
      simp only [if_neg hc]
      rfl

/-- An assignment to a record keeps the maximum partner count. -/
@[simp] theorem modifyPartner_max (self : FRTTransceiver T) (pos : Nat)
    (f : CommunicationPartner T → CommunicationPartner T) :
    (self.modifyPartner pos f)._u8MaxPartners = self._u8MaxPartners := rfl

/-- The shifting loop keeps the partner count and the maximum. -/
theorem rearrange_registry (self : FRTTransceiver T) (pos : Nat) :
    (self._rearrangeTempContainerArray pos)._u8MaxPartners = self._u8MaxPartners
    ∧ (self._rearrangeTempContainerArray pos)._u8CurrCommPartners
        = self._u8CurrCommPartners := by
  unfold _rearrangeTempContainerArray
  rw [rearrange_fold]
  exact ⟨rfl, rfl⟩

/-- The eviction block keeps the partner count and the maximum. -/
theorem evictOldest_registry (self : FRTTransceiver T) (pos : Nat) :
    (self.evictOldest pos).1._u8MaxPartners = self._u8MaxPartners
    ∧ (self.evictOldest pos).1._u8CurrCommPartners = self._u8CurrCommPartners := by
  unfold evictOldest
  simp only [modifyPartner_max, modifyPartner_count]
  split_ifs
  · exact rearrange_registry _ _
  · exact ⟨rfl, rfl⟩

/-- The destroy loop keeps the partner count and the maximum. -/
theorem destroyAll_registry (self : FRTTransceiver T) (pos : Nat) :
    (self.destroyAll pos).1._u8MaxPartners = self._u8MaxPartners
    ∧ (self.destroyAll pos).1._u8CurrCommPartners = self._u8CurrCommPartners := by
  unfold destroyAll
  generalize (List.range ((self._structCommPartners pos).i8CurrTempcontainerPos + 1).toNat) = l
  have key : ∀ (l : List Nat) (acc : FRTTransceiver T × List (Call T)),
      (l.foldl (fun (acc : FRTTransceiver T × List (Call T)) (u8I : Nat) =>
        let object := (acc.1._structCommPartners pos).tempContainer (u8I : Int)
        (acc.1.modifyPartner pos (fun p =>
            { p with tempContainer :=
                Function.update p.tempContainer (u8I : Int) (acc.1.callDestroyer object) }),
          acc.2 ++ [Call.dataDestroyer (u8I : Int) object])) acc).1._u8MaxPartners
        = acc.1._u8MaxPartners
      ∧ (l.foldl (fun (acc : FRTTransceiver T × List (Call T)) (u8I : Nat) =>
        let object := (acc.1._structCommPartners pos).tempContainer (u8I : Int)
        (acc.1.modifyPartner pos (fun p =>
            { p with tempContainer :=
                Function.update p.tempContainer (u8I : Int) (acc.1.callDestroyer object) }),
          acc.2 ++ [Call.dataDestroyer (u8I : Int) object])) acc).1._u8CurrCommPartners
        = acc.1._u8CurrCommPartners := by
    intro l
    induction l with
    | nil => intro acc; exact ⟨rfl, rfl⟩
    | cons a t ih =>
      intro acc
      rw [List.foldl_cons]
      exact ⟨(ih _).1.trans rfl, (ih _).2.trans rfl⟩
  exact key l (self, [])

/-- `readFromQueue` keeps the partner count and the maximum. -/
theorem readFromQueue_registry (self : FRTTransceiver T) (source : Nat) (blockTimeRead
    blockTimeTakeSemaphore : Int) (takeOk : Bool) (received : Option DataContainerOnQueue) :
    (self.readFromQueue source blockTimeRead blockTimeTakeSemaphore takeOk
        received).state._u8MaxPartners = self._u8MaxPartners
    ∧ (self.readFromQueue source blockTimeRead blockTimeTakeSemaphore takeOk
        received).state._u8CurrCommPartners = self._u8CurrCommPartners := by
  have hev : (if (self._structCommPartners (self._getCommStruct source).toNat).rxQueueFull = true
      then self.evictOldest (self._getCommStruct source).toNat
      else (self, [])).1._u8MaxPartners = self._u8MaxPartners
      ∧ (if (self._structCommPartners (self._getCommStruct source).toNat).rxQueueFull = true
      then self.evictOldest (self._getCommStruct source).toNat
      else (self, [])).1._u8CurrCommPartners = self._u8CurrCommPartners := by
    split_ifs
    · exact evictOldest_registry self _
    · exact ⟨rfl, rfl⟩
  rcases readFromQueue_paths self source blockTimeRead blockTimeTakeSemaphore takeOk received with
      ⟨_, hr⟩ | ⟨_, _, hr⟩ | ⟨_, _, _, hr⟩ | ⟨_, _, _, _, hr⟩ | ⟨hp, ht, hb, msg, _, _, hm, _⟩
  · rw [hr]; exact ⟨rfl, rfl⟩
  · rw [hr]; exact ⟨rfl, rfl⟩
  · rw [hr]; exact ⟨rfl, rfl⟩
  · rw [hr]; exact hev
  · subst ht
    subst hm
    have h := (readFromQueue_success self source blockTimeRead blockTimeTakeSemaphore msg
      hp.1 hp.2.1 hp.2.2.1 hp.2.2.2.1 hp.2.2.2.2 hb).2.2
    rw [h]
    exact hev

/-- `manualDeleteAllocatedData` keeps the partner count and the maximum. -/
theorem manualDeleteAllocatedData_registry (self : FRTTransceiver T) (partner : Nat) :
    (self.manualDeleteAllocatedData partner).state._u8MaxPartners = self._u8MaxPartners
    ∧ (self.manualDeleteAllocatedData partner).state._u8CurrCommPartners
        = self._u8CurrCommPartners := by
  simp only [manualDeleteAllocatedData]
  split_ifs <;> exact ⟨rfl, rfl⟩

/-- `manualDeleteAllAllocatedDataForLine` keeps the partner count and the maximum. -/
theorem manualDeleteAllAllocatedDataForLine_registry (self : FRTTransceiver T)
    (partner : Nat) :
    (self.manualDeleteAllAllocatedDataForLine partner).state._u8MaxPartners
        = self._u8MaxPartners
    ∧ (self.manualDeleteAllAllocatedDataForLine partner).state._u8CurrCommPartners
        = self._u8CurrCommPartners := by
  simp only [manualDeleteAllAllocatedDataForLine]
  split_ifs <;> first | exact ⟨rfl, rfl⟩ | exact destroyAll_registry self _

/-- `addCommQueue` keeps the partner count and the maximum. -/
theorem addCommQueue_registry (self : FRTTransceiver T) (partner queueRxOrTx
    u8QueueLength : Nat) (isTxQueue : Bool) :
    (self.addCommQueue partner queueRxOrTx u8QueueLength isTxQueue).state._u8MaxPartners
        = self._u8MaxPartners
    ∧ (self.addCommQueue partner queueRxOrTx u8QueueLength isTxQueue).state._u8CurrCommPartners
        = self._u8CurrCommPartners := by
  simp only [addCommQueue]
  split_ifs <;> exact ⟨rfl, rfl⟩

/-- No public call changes the maximum, and none lets the partner count pass it. -/
theorem step_count_le_max (self : FRTTransceiver T) (op : Op T)
    (hmax : self._u8MaxPartners ≤ 255)
    (h : self._u8CurrCommPartners ≤ self._u8MaxPartners) :
    (step self op).1._u8MaxPartners = self._u8MaxPartners
    ∧ (step self op).1._u8CurrCommPartners ≤ self._u8MaxPartners := by
  cases op with
  | addCommPartner a s qr lr qt lt n =>
    simp only [step]
    rcases addCommPartner_paths self a s qr lr qt lt n with
      ⟨_, hr⟩ | ⟨_, _, _, hr⟩ | ⟨hc, _, _, _, _, h1, h2, _⟩
    · rw [hr]; exact ⟨rfl, h⟩
    · rw [hr]; exact ⟨rfl, h⟩
    · refine ⟨h2, ?_⟩
      rw [h1]
      have : (self._u8CurrCommPartners + 1) % 256 = self._u8CurrCommPartners + 1 :=
        Nat.mod_eq_of_lt (by omega)
      omega
  | addCommQueue p q l t =>
    simp only [step]
    have := addCommQueue_registry self p q l t
    exact ⟨this.1, by rw [this.2]; exact h⟩
  | readFromQueue src tr tl ok rcv =>
    simp only [step]
    have := readFromQueue_registry self src tr tl ok rcv
    exact ⟨this.1, by rw [this.2]; exact h⟩
  | manualDeleteAllocatedData p =>
    simp only [step]
    have := manualDeleteAllocatedData_registry self p
    exact ⟨this.1, by rw [this.2]; exact h⟩
  | manualDeleteAllAllocatedDataForLine p =>
    simp only [step]
    have := manualDeleteAllAllocatedDataForLine_registry self p
    exact ⟨this.1, by rw [this.2]; exact h⟩

/-- Along every sequence of public calls the maximum stays and the partner count stays
below it. -/
theorem run_count_le_max (ops : List (Op T)) (self : FRTTransceiver T)
    (hmax : self._u8MaxPartners ≤ 255)
    (h : self._u8CurrCommPartners ≤ self._u8MaxPartners) :
    (run self ops).1._u8MaxPartners = self._u8MaxPartners
    ∧ (run self ops).1._u8CurrCommPartners ≤ self._u8MaxPartners := by
  induction ops generalizing self with
  | nil => exact ⟨rfl, h⟩
  | cons op rest ih =>
    simp only [run]
    have hs := step_count_le_max self op hmax h
    have hr := ih (step self op).1 (by rw [hs.1]; exact hmax) (by rw [hs.1]; exact hs.2)
    exact ⟨hr.1.trans hs.1, by rw [← hs.1]; exact hr.2⟩

/-- Registration calls with fresh, pairwise distinct identities keep the registered identities
pairwise distinct. -/
theorem run_registrations_distinct (ops : List (Op T)) (self : FRTTransceiver T)
    (hmax : self._u8MaxPartners ≤ 255)
    (hcount : self._u8CurrCommPartners ≤ self._u8MaxPartners)
    (hdist : ∀ i j, i < self._u8CurrCommPartners → j < self._u8CurrCommPartners → i ≠ j →
      (self._structCommPartners i).commPartner ≠ (self._structCommPartners j).commPartner)
    (hfresh : ∀ i, i < self._u8CurrCommPartners →
      (self._structCommPartners i).commPartner ∉ ops.map Op.identity)
    (hreg : ∀ op ∈ ops, op.isRegistration = true)
    (hnodup : (ops.map Op.identity).Nodup) :
    ∀ i j, i < (run self ops).1._u8CurrCommPartners → j < (run self ops).1._u8CurrCommPartners →
      i ≠ j →
      ((run self ops).1._structCommPartners i).commPartner
        ≠ ((run self ops).1._structCommPartners j).commPartner := by
  induction ops generalizing self with
  | nil => exact hdist
  | cons op rest ih =>
    simp only [run]
    have hrest : ∀ o ∈ rest, o.isRegistration = true :=
      fun o ho => hreg o (List.mem_cons_of_mem op ho)
    rw [List.map_cons, List.nodup_cons] at hnodup
    cases op with
    | addCommPartner a s qr lr qt lt n =>
      simp only [step]
      simp only [List.map_cons, Op.identity, List.mem_cons, not_or] at hfresh hnodup
      rcases addCommPartner_paths self a s qr lr qt lt n with
        ⟨_, hr⟩ | ⟨_, _, _, hr⟩ | ⟨hc, _, _, _, _, hcnt, hm, _, _, hother, hid, _⟩
      · rw [hr]
        exact ih self hmax hcount hdist (fun i hi => (hfresh i hi).2) hrest hnodup.2
      · rw [hr]
        have hsame : ∀ i, i < self._u8CurrCommPartners →
            ((self.modifyPartner self._u8CurrCommPartners (fun p =>
              { p with commPartner := a }))._structCommPartners i)
            = self._structCommPartners i :=
          fun i hi => modifyPartner_other _ _ _ _ (by omega)
        apply ih (self.modifyPartner self._u8CurrCommPartners (fun p =>
          { p with commPartner := a })) hmax hcount
        · intro i j hi hj hij
          have hi2 : i < self._u8CurrCommPartners := hi
          have hj2 : j < self._u8CurrCommPartners := hj
          rw [hsame i hi2, hsame j hj2]
          exact hdist i j hi2 hj2 hij
        · intro i hi
          have hi2 : i < self._u8CurrCommPartners := hi
          rw [hsame i hi2]
          exact (hfresh i hi2).2
        · exact hrest
        · exact hnodup.2
      · have hcnt2 : (self.addCommPartner a s qr lr qt lt n).state._u8CurrCommPartners
            = self._u8CurrCommPartners + 1 := by
          rw [hcnt]
          exact Nat.mod_eq_of_lt (by omega)
        have hrec : ∀ i, i < self._u8CurrCommPartners + 1 →
            ((self.addCommPartner a s qr lr qt lt n).state._structCommPartners i).commPartner
              = if i = self._u8CurrCommPartners then a
                else (self._structCommPartners i).commPartner := by
          intro i _
          by_cases hi : i = self._u8CurrCommPartners
          · rw [if_pos hi, hi]
            exact hid
          · rw [if_neg hi, hother i hi]
        apply ih (self.addCommPartner a s qr lr qt lt n).state (by rw [hm]; exact hmax)
          (by rw [hm, hcnt2]; omega)
        · intro i j hi hj hij
          rw [hcnt2] at hi hj
          rw [hrec i hi, hrec j hj]
          by_cases hi2 : i = self._u8CurrCommPartners
          · have hj2 : j ≠ self._u8CurrCommPartners := by omega
            rw [if_pos hi2, if_neg hj2]
            exact fun h => (hfresh j (by omega)).1 h.symm
          · rw [if_neg hi2]
            by_cases hj2 : j = self._u8CurrCommPartners
            · rw [if_pos hj2]
              exact (hfresh i (by omega)).1
            · rw [if_neg hj2]
              exact hdist i j (by omega) (by omega) hij
        · intro i hi
          rw [hcnt2] at hi
          rw [hrec i hi]
          by_cases hi2 : i = self._u8CurrCommPartners
          · rw [if_pos hi2]
            exact hnodup.1
          · rw [if_neg hi2]
            exact (hfresh i (by omega)).2
        · exact hrest
        · exact hnodup.2
    | addCommQueue p q l t =>
      exact absurd (hreg _ (List.mem_cons_self _ _)) (by simp [Op.isRegistration])
    | readFromQueue src tr tl ok rcv =>
      exact absurd (hreg _ (List.mem_cons_self _ _)) (by simp [Op.isRegistration])
    | manualDeleteAllocatedData p =>
      exact absurd (hreg _ (List.mem_cons_self _ _)) (by simp [Op.isRegistration])
    | manualDeleteAllAllocatedDataForLine p =>
      exact absurd (hreg _ (List.mem_cons_self _ _)) (by simp [Op.isRegistration])

/-- The produced objects of two call lists in a row. -/
theorem allocated_append (l1 l2 : List (Call T)) :
    allocated (l1 ++ l2) = allocated l1 ++ allocated l2 := by
  induction l1 with
  | nil => rfl
  | cons c t ih => cases c <;> simp [allocated, ih]

/-- The destroyed objects of two call lists in a row. -/
theorem destroyed_append (l1 l2 : List (Call T)) :
    destroyed (l1 ++ l2) = destroyed l1 ++ destroyed l2 := by
  induction l1 with
  | nil => rfl
  | cons c t ih => cases c <;> simp [destroyed, ih]

/-- The allocations of two call lists in a row. -/
theorem allocations_append (l1 l2 : List (Call T)) :
    allocations (l1 ++ l2) = allocations l1 ++ allocations l2 := by
  induction l1 with
  | nil => rfl
  | cons c t ih => cases c <;> simp [allocations, ih]

/-- Dropping the first of the values of `f` at `0 .. m` leaves the values at `1 .. m`. -/
theorem tail_map_range_succ {α : Type} (f : Nat → α) (m : Nat) :
    ((List.range (m + 1)).map f).tail = (List.range m).map (fun j => f (j + 1)) := by
  rw [List.range_succ_eq_map]
  simp [List.map_map, Function.comp_def]

/-- One successful receive on a partner whose staging buffer holds `c <= n` entries, `n` being
the declared capacity: what it calls, what it leaves of the registry, and the staged entries
afterwards (the old ones, without the oldest when the buffer was full, followed by the new
object). -/
theorem readFromQueue_stages_one (self : FRTTransceiver T)
    (allocate : DataContainerOnQueue → T → T) (destroy : T → T) (source pos n c : Nat)
    (blockTimeRead blockTimeTakeSemaphore : Int) (msg : DataContainerOnQueue)
    (hA : self._dataAllocator = some allocate) (hD : self._dataDestroyer = some destroy)
    (hcount : self._u8CurrCommPartners ≤ 255)
    (hpos : self._getCommStruct source = (pos : Int))
    (hsem : (self._structCommPartners pos).semaphore ≠ 0)
    (hrx : (self._structCommPartners pos).rxQueue ≠ 0)
    (hl : -1 ≤ blockTimeTakeSemaphore) (hb : -1 ≤ blockTimeRead)
    (hn1 : 1 ≤ n) (hn : n ≤ 128)
    (hcap : (self._structCommPartners pos).u8RxQueueLength = n) (hc : c ≤ n)
    (hocc : (self._structCommPartners pos).i8CurrTempcontainerPos = (c : Int) - 1)
    (hfull : (self._structCommPartners pos).rxQueueFull = decide (c = n)) :
    (let r := self.readFromQueue source blockTimeRead blockTimeTakeSemaphore true (some msg)
    let p := self._structCommPartners pos
    let q := r.state._structCommPartners pos
    let o := q.tempContainer (((min (c + 1) n : Nat) : Int) - 1)
    allocated r.calls = [o]
    ∧ allocations r.calls = [(msg, o)]
    ∧ destroyed r.calls = (if c < n then [] else [p.tempContainer 0])
    ∧ r.state._dataAllocator = self._dataAllocator
    ∧ r.state._dataDestroyer = self._dataDestroyer
    ∧ r.state._u8CurrCommPartners = self._u8CurrCommPartners
    ∧ (∀ x, r.state._getCommStruct x = self._getCommStruct x)
    ∧ q.semaphore = p.semaphore ∧ q.rxQueue = p.rxQueue ∧ q.u8RxQueueLength = n
    ∧ q.hasBufferedData = true
    ∧ q.i8CurrTempcontainerPos = ((min (c + 1) n : Nat) : Int) - 1
    ∧ q.rxQueueFull = decide (min (c + 1) n = n)
    ∧ q.staged = (if c < n then p.staged else p.staged.tail) ++ [o]) := by
  intro r p q o
  have hI := hasDataInterpreters_of_set self allocate destroy hA hD
  have hS := hasSemaphore_of_found self source pos hpos hsem
  have hlt := getCommStruct_lt self source pos hpos
  have hposI : (self._getCommStruct source).toNat = pos := by rw [hpos]; rfl
  have hne : self._getCommStruct source ≠ -1 := by rw [hpos]; omega
  have hs := readFromQueue_success self source blockTimeRead blockTimeTakeSemaphore msg hI hS
    hne (by rw [hposI]; exact hrx) hl hb
  simp only [hposI] at hs
  obtain ⟨-, hcalls, hstate⟩ := hs
  by_cases hcn : c < n
  · have hnf : ¬ ((self._structCommPartners pos).rxQueueFull = true) := by
      rw [hfull]
      simp
      omega
    rw [if_neg hnf] at hcalls hstate
    simp only [hocc] at hcalls hstate
    have hw : wrapI8 ((c : Int) - 1 + 1) = (c : Int) := by
      rw [wrapI8_of_range] <;> omega
    rw [hw] at hcalls hstate
    have hmin : min (c + 1) n = c + 1 := Nat.min_eq_left (by omega)
    have hrq : ¬ ((c : Int) + 1 = ((self._structCommPartners pos).u8RxQueueLength : Int))
        ↔ ¬ (c + 1 = n) := by
      rw [hcap]
      omega
    have hq : q = { p with
        rxLineContainer := msg
        hasBufferedData := true
        rxQueueFull := decide (c + 1 = n)
        i8CurrTempcontainerPos := (c : Int)
        tempContainer := Function.update p.tempContainer (c : Int)
          (self.callAllocator msg (p.tempContainer (c : Int))) } := by
      simp only [q, r, hstate, modifyPartner_same]
      by_cases h : c + 1 = n
      · have h2 : (c : Int) + 1 = ((self._structCommPartners pos).u8RxQueueLength : Int) := by
          rw [hcap]
          omega
        simp only [if_pos h2, h, decide_True]
      · have h2 := hrq.2 h
        have h3 : (self._structCommPartners pos).rxQueueFull = false := by
          rw [hfull]
          simp
          omega
        simp only [if_neg h2, h, decide_False, h3]
    have ho : o = self.callAllocator msg (p.tempContainer (c : Int)) := by
      simp only [o, hmin, hq]
      have : (((c + 1 : Nat) : Int) - 1) = (c : Int) := by omega
      rw [this, Function.update_same]
    have hq2 : q = { p with
        rxLineContainer := msg
        hasBufferedData := true
        rxQueueFull := decide (c + 1 = n)
        i8CurrTempcontainerPos := (c : Int)
        tempContainer := Function.update p.tempContainer (c : Int) o } := by
      rw [ho]
      exact hq
    have hcalls2 : r.calls = _ := hcalls
    have hstate2 : r.state = _ := hstate
    refine ⟨?_, ?_, ?_, ?_, ?_, ?_, ?_, ?_, ?_, ?_, ?_, ?_, ?_, ?_⟩
    · rw [hcalls2, ho]
      rfl
    · rw [hcalls2, ho]
      rfl
    · rw [hcalls2, if_pos hcn]
      rfl
    · rw [hstate2]
      rfl
    · rw [hstate2]
      rfl
    · rw [hstate2]
      rfl
    · intro x
      rw [hstate2]
      apply getCommStruct_congr
      · rfl
      · intro i _
        by_cases hi : i = pos
        · rw [hi, modifyPartner_same]
        · rw [modifyPartner_other _ _ _ _ hi]
    · rw [hq2]
    · rw [hq2]
    · rw [hq2]
      exact hcap
    · rw [hq2]
    · rw [hq2, hmin]
      dsimp only
      omega
    · rw [hq2, hmin]
    · rw [if_pos hcn]
      have hqs : q.staged = (List.range (c + 1)).map (fun (j : Nat) => q.tempContainer (j : Int)) := by
        unfold CommunicationPartner.staged
        rw [hq2]
        dsimp only
        have : ((c : Int) + 1).toNat = c + 1 := by omega
        rw [this]
      have hps : p.staged = (List.range c).map (fun (j : Nat) => p.tempContainer (j : Int)) := by
        unfold CommunicationPartner.staged
        have : ((self._structCommPartners pos).i8CurrTempcontainerPos + 1).toNat = c := by
          rw [hocc]
          omega
        simp only [p, this]
      rw [hqs, hps, List.range_succ, List.map_append]
      congr 1
      · apply List.map_congr_left
        intro j hj
        rw [List.mem_range] at hj
        rw [hq2]
        dsimp only
        rw [Function.update_noteq (by omega)]
      · rw [hq2]
        simp
  · have hcn2 : c = n := by omega
    subst hcn2
    have hf : (self._structCommPartners pos).rxQueueFull = true := by
      rw [hfull]
      simp
    have hev := evictOldest_full self destroy pos c hD (by omega) hn1 hn hcap hocc
    rw [if_pos hf, hev] at hcalls hstate
    simp only [modifyPartner_same, modifyPartner_modifyPartner, modifyPartner_allocator,
      callAllocator] at hcalls hstate
    have hw : wrapI8 ((c : Int) - 2 + 1) = (c : Int) - 1 := by
      rw [wrapI8_of_range] <;> omega
    rw [hw] at hcalls hstate
    have hmin : min (c + 1) c = c := Nat.min_eq_right (by omega)
    have hcapI : (c : Int) - 1 + 1 = ((self._structCommPartners pos).u8RxQueueLength : Int) := by
      rw [hcap]
      omega
    rw [if_pos hcapI] at hstate
    have hq0 := congrArg (fun t => t._structCommPartners pos) hstate
    simp only [modifyPartner_same] at hq0
    have ho : o = q.tempContainer ((c : Int) - 1) := by
      simp only [o, hmin]
    have hX := congrArg (fun t => t.tempContainer ((c : Int) - 1)) hq0
    simp only [Function.update_same] at hX
    have hcalls2 : r.calls = _ := hcalls
    have hstate2 : r.state = _ := hstate
    have hq : q = _ := hq0
    have hdec : decide (c = c) = true := by simp
    refine ⟨?_, ?_, ?_, ?_, ?_, ?_, ?_, ?_, ?_, ?_, ?_, ?_, ?_, ?_⟩
    · rw [hcalls2, ho]
      simp only [allocated, List.append_assoc, List.cons_append, List.nil_append]
      exact congrArg (fun x => [x]) hX.symm
    · rw [hcalls2, ho]
      simp only [allocations, List.append_assoc, List.cons_append, List.nil_append]
      exact congrArg (fun x => [(msg, x)]) hX.symm
    · rw [hcalls2, if_neg hcn]
      rfl
    · rw [hstate2]
      rfl
    · rw [hstate2]
      rfl
    · rw [hstate2]
      rfl
    · intro x
      rw [hstate2]
      apply getCommStruct_congr
      · rfl
      · intro i _
        by_cases hi : i = pos
        · rw [hi, modifyPartner_same]
        · rw [modifyPartner_other _ _ _ _ hi]
    · rw [hq]
    · rw [hq]
    · rw [hq]
      exact hcap
    · rw [hq]
    · rw [hq, hmin]
    · rw [hq, hmin, hdec]
    · rw [if_neg hcn]
      obtain ⟨m, hm⟩ : ∃ m, c = m + 1 := ⟨c - 1, by omega⟩
      have hqi : (q.i8CurrTempcontainerPos + 1).toNat = m + 1 := by
        rw [hq]
        dsimp only
        omega
      have hpi : ((self._structCommPartners pos).i8CurrTempcontainerPos + 1).toNat = m + 1 := by
        rw [hocc]
        omega
      have hqs : q.staged = (List.range (m + 1)).map (fun (j : Nat) => q.tempContainer (j : Int)) := by
        unfold CommunicationPartner.staged
        rw [hqi]
      have hps : p.staged = (List.range (m + 1)).map (fun (j : Nat) => p.tempContainer (j : Int)) := by
        unfold CommunicationPartner.staged
        simp only [p, hpi]
      rw [hqs, hps, tail_map_range_succ, List.range_succ, List.map_append]
      congr 1
      · apply List.map_congr_left
        intro j hj
        rw [List.mem_range] at hj
        have hj1 : (j : Int) ≠ (c : Int) - 1 := by omega
        have hj2 : 0 ≤ (j : Int) ∧ (j : Int) < (c : Int) - 1 := by omega
        have hv := congrArg (fun t => t.tempContainer (j : Int)) hq0
        simp only [Function.update_noteq hj1, if_pos hj2] at hv
        have hv2 : q.tempContainer (j : Int) = _ := hv
        rw [hv2]
        push_cast
        rfl
      · have hmc : ((m : Nat) : Int) = (c : Int) - 1 := by omega
        simp only [List.map_cons, List.map_nil]
        rw [hmc, ho]

/-- Consecutive successful receives on one partner, started with `c <= n` staged entries:
the old entries followed by the objects produced are the objects destroyed followed by the
entries staged at the end, and the buffer ends with `min (c + k) n` entries. -/
theorem run_reads_conserve (allocate : DataContainerOnQueue → T → T) (destroy : T → T)
    (source pos n : Nat) (hn1 : 1 ≤ n) (hn : n ≤ 128)
    (reads : List (Int × Int × DataContainerOnQueue))
    (hvalid : ∀ x ∈ reads, -1 ≤ x.1 ∧ -1 ≤ x.2.1) :
    ∀ (self : FRTTransceiver T) (c : Nat),
      self._dataAllocator = some allocate → self._dataDestroyer = some destroy →
      self._u8CurrCommPartners ≤ 255 →
      self._getCommStruct source = (pos : Int) →
      (self._structCommPartners pos).semaphore ≠ 0 →
      (self._structCommPartners pos).rxQueue ≠ 0 →
      (self._structCommPartners pos).u8RxQueueLength = n → c ≤ n →
      (self._structCommPartners pos).i8CurrTempcontainerPos = (c : Int) - 1 →
      (self._structCommPartners pos).rxQueueFull = decide (c = n) →
      (let res := run self (reads.map (fun x =>
          Op.readFromQueue source x.1 x.2.1 true (some x.2.2)))
      let p := self._structCommPartners pos
      let q := res.1._structCommPartners pos
      p.staged ++ allocated res.2 = destroyed res.2 ++ q.staged
      ∧ (allocations res.2).map Prod.fst = reads.map (fun x => x.2.2)
      ∧ (allocations res.2).map Prod.snd = allocated res.2
      ∧ q.i8CurrTempcontainerPos = ((min (c + reads.length) n : Nat) : Int) - 1
      ∧ (reads ≠ [] → q.hasBufferedData = true)
      ∧ res.1._getCommStruct source = (pos : Int)) := by
  induction reads with
  | nil =>
    intro self c _ _ _ hpos _ _ _ hc hocc _
    refine ⟨?_, rfl, rfl, ?_, fun h => absurd rfl h, hpos⟩
    · simp only [List.map_nil, run, allocated, destroyed, List.append_nil, List.nil_append]
    · simp only [List.map_nil, run, List.length_nil, Nat.add_zero]
      rw [hocc, Nat.min_eq_left hc]
  | cons x rest ih =>
    intro self c hA hD hcount hpos hsem hrx hcap hc hocc hfull
    have hx := hvalid x (List.mem_cons_self x rest)
    have hrest : ∀ y ∈ rest, -1 ≤ y.1 ∧ -1 ≤ y.2.1 :=
      fun y hy => hvalid y (List.mem_cons_of_mem x hy)
    have h1 := readFromQueue_stages_one self allocate destroy source pos n c x.1 x.2.1 x.2.2
      hA hD hcount hpos hsem hrx hx.2 hx.1 hn1 hn hcap hc hocc hfull
    obtain ⟨ha, hal, hd, hA1, hD1, hc1, hlook, hs1, hr1, hcap1, hb1, hi1, hf1, hst1⟩ := h1
    have hmin : min (c + 1) n ≤ n := Nat.min_le_right _ _
    have h2 := ih hrest (self.readFromQueue source x.1 x.2.1 true (some x.2.2)).state
      (min (c + 1) n) (by rw [hA1]; exact hA) (by rw [hD1]; exact hD)
      (by rw [hc1]; exact hcount) (by rw [hlook]; exact hpos) (by rw [hs1]; exact hsem)
      (by rw [hr1]; exact hrx) hcap1 hmin hi1 hf1
    obtain ⟨g1, g2, g3, g4, g5, g6⟩ := h2
    simp only [List.map_cons, run, step, allocated_append, destroyed_append, allocations_append,
      List.map_append, List.length_cons]
    refine ⟨?_, ?_, ?_, ?_, fun _ => ?_, g6⟩
    · rw [ha, hd, List.append_assoc, ← g1, hst1]
      by_cases hcn : c < n
      · rw [if_pos hcn, if_pos hcn]
        simp
      · rw [if_neg hcn, if_neg hcn]
        have hcn2 : c = n := by omega
        have hne : (self._structCommPartners pos).staged
            = (self._structCommPartners pos).tempContainer 0
              :: (self._structCommPartners pos).staged.tail := by
          obtain ⟨m, hm⟩ : ∃ m, c = m + 1 := ⟨c - 1, by omega⟩
          unfold CommunicationPartner.staged
          have : ((self._structCommPartners pos).i8CurrTempcontainerPos + 1).toNat = m + 1 := by
            rw [hocc]
            omega
          rw [this, List.range_succ_eq_map]
          simp
        rw [hne]
        simp
    · rw [hal, g2]
      rfl
    · rw [hal, ha, g3]
      rfl
    · rw [g4]
      have : min (min (c + 1) n + rest.length) n = min (c + (rest.length + 1)) n := by
        omega
      rw [this]
    · by_cases hr : rest = []
      · subst hr
        simp only [List.map_nil, run]
        exact hb1
      · exact g5 hr

/-- Consecutive receives into a buffer that is empty with its full flag clear: on a partner of
declared rx capacity `n` with `1 <= n <= 128` (what the `int8_t` occupancy index can count)
whose occupancy index is -1 and whose `rxQueueFull` flag is clear, `k` consecutive successful
`readFromQueue` calls hand the envelopes to the allocate callback one by one in arrival order;
afterwards the staged entries at indices `0 .. min k n - 1` are the objects produced for the
last `min k n` envelopes in arrival order, the destroy callback has been invoked exactly
`k - n` times, on the objects produced for the first `k - n` envelopes in arrival order, and
for `k >= 1` `getOldestBufferedDataFrom` points at index 0, the first staged entry, and
`getNewestBufferedDataFrom` at index `min k n - 1`, the last one. The hypothesis on the flag
cannot be dropped: an emptied buffer may still carry the flag. -/
theorem receives_into_cleared_buffer_keep_the_last_n (self : FRTTransceiver T)
    (allocate : DataContainerOnQueue → T → T) (destroy : T → T) (source pos n : Nat)
    (reads : List (Int × Int × DataContainerOnQueue))
    (hA : self._dataAllocator = some allocate) (hD : self._dataDestroyer = some destroy)
    (hcount : self._u8CurrCommPartners ≤ 255)
    (hpos : self._getCommStruct source = (pos : Int))
    (hsem : (self._structCommPartners pos).semaphore ≠ 0)
    (hrx : (self._structCommPartners pos).rxQueue ≠ 0)
    (hcap : (self._structCommPartners pos).u8RxQueueLength = n)
    (hn1 : 1 ≤ n) (hn : n ≤ 128)
    (hempty : (self._structCommPartners pos).i8CurrTempcontainerPos = -1)
    (hnotfull : (self._structCommPartners pos).rxQueueFull = false)
    (hvalid : ∀ x ∈ reads, -1 ≤ x.1 ∧ -1 ≤ x.2.1) :
    (let res := run self (reads.map (fun x =>
        Op.readFromQueue source x.1 x.2.1 true (some x.2.2)))
    let q := res.1._structCommPartners pos
    let made := allocated res.2
    let k := reads.length
    (allocations res.2).map Prod.fst = reads.map (fun x => x.2.2)
    ∧ (allocations res.2).map Prod.snd = made
    ∧ made.length = k
    ∧ q.staged = made.drop (k - n)
    ∧ q.staged.length = min k n
    ∧ q.i8CurrTempcontainerPos = ((min k n : Nat) : Int) - 1
    ∧ destroyed res.2 = made.take (k - n)
    ∧ (destroyed res.2).length = k - n
    ∧ (0 < k →
        res.1.getOldestBufferedDataFrom source = some 0
        ∧ res.1.getNewestBufferedDataFrom source = some (((min k n : Nat) : Int) - 1)
        ∧ q.staged.head? = some (q.tempContainer 0)
        ∧ q.staged.getLast? = some (q.tempContainer (((min k n : Nat) : Int) - 1)))) := by
  intro res q made k
  have hfull : (self._structCommPartners pos).rxQueueFull = decide (0 = n) := by
    rw [hnotfull]
    symm
    simp
    omega
  have hocc : (self._structCommPartners pos).i8CurrTempcontainerPos = ((0 : Nat) : Int) - 1 := by
    rw [hempty]
    rfl
  have h := run_reads_conserve allocate destroy source pos n hn1 hn reads hvalid self 0 hA hD
    hcount hpos hsem hrx hcap (Nat.zero_le n) hocc hfull
  obtain ⟨g1, g2, g3, g4, g5, g6⟩ := h
  have hp0 : (self._structCommPartners pos).staged = [] := by
    unfold CommunicationPartner.staged
    rw [hempty]
    rfl
  rw [hp0, List.nil_append] at g1
  rw [Nat.zero_add] at g4
  have g1b : made = destroyed res.2 ++ q.staged := g1
  have g4b : q.i8CurrTempcontainerPos = ((min k n : Nat) : Int) - 1 := g4
  have e1 : (allocations res.2).length = reads.length := by
    have := congrArg List.length g2
    simpa using this
  have e2 : (allocations res.2).length = (allocated res.2).length := by
    have := congrArg List.length g3
    simpa using this
  have hlen : made.length = k := e2.symm.trans e1
  have hslen : q.staged.length = min k n := by
    unfold CommunicationPartner.staged
    rw [List.length_map, List.length_range, g4b]
    omega
  have hdlen : (destroyed res.2).length = k - n := by
    have := congrArg List.length g1b
    rw [List.length_append, hlen, hslen] at this
    omega
  have htake : destroyed res.2 = made.take (k - n) := by
    rw [g1b, ← hdlen, List.take_left]
  have hdrop : q.staged = made.drop (k - n) := by
    rw [g1b, ← hdlen, List.drop_left]
  refine ⟨g2, g3, hlen, hdrop, hslen, g4b, htake, hdlen, fun hk => ?_⟩
  have hne : reads ≠ [] := by
    intro h0
    have hk2 : 0 < reads.length := hk
    rw [h0] at hk2
    exact absurd hk2 (by decide)
  have hb := g5 hne
  have hlook : res.1._getCommStruct source = (pos : Int) := g6
  have hmk : 1 ≤ min k n := by
    have : 0 < k := hk
    omega
  obtain ⟨m, hm⟩ : ∃ m, min k n = m + 1 := ⟨min k n - 1, by omega⟩
  have hqs : q.staged = (List.range (m + 1)).map (fun (j : Nat) => q.tempContainer (j : Int)) := by
    unfold CommunicationPartner.staged
    have : (q.i8CurrTempcontainerPos + 1).toNat = m + 1 := by
      rw [g4b]
      omega
    rw [this]
  refine ⟨?_, ?_, ?_, ?_⟩
  · simp only [getOldestBufferedDataFrom, hlook, Int.toNat_ofNat]
    rw [if_pos hb, if_neg (by omega)]
  · simp only [getNewestBufferedDataFrom, hlook, Int.toNat_ofNat]
    rw [if_pos hb, if_neg (by omega)]
    exact congrArg some g4b
  · rw [hqs, List.range_succ_eq_map]
    rfl
  · rw [hqs, List.range_succ, List.map_append, List.map_cons, List.map_nil,
      List.getLast?_concat, hm]
    have : ((m : Nat) : Int) = ((m + 1 : Nat) : Int) - 1 := by omega
    rw [this]

/-- Three envelopes received into the staging buffer of a freshly registered partner of
capacity 2. -/
theorem receives_into_cleared_buffer_at_three :
    (let s := ((symbolic 1).addCommPartner 1 1 1 2 0 0 "p").state
    let reads : List (Int × Int × DataContainerOnQueue) :=
      [(0, 0, ⟨7, 0, 0⟩), (0, 0, ⟨8, 0, 0⟩), (0, 0, ⟨9, 0, 0⟩)]
    let res := run s (reads.map (fun x => Op.readFromQueue 1 x.1 x.2.1 true (some x.2.2)))
    ((s._structCommPartners 0).u8RxQueueLength = 2
      ∧ (s._structCommPartners 0).i8CurrTempcontainerPos = -1
      ∧ (s._structCommPartners 0).rxQueueFull = false)
    ∧ (res.1._structCommPartners 0).staged = (allocated res.2).drop (3 - 2)
    ∧ destroyed res.2 = (allocated res.2).take (3 - 2)
    ∧ res.1.getNewestBufferedDataFrom 1 = some (((min 3 2 : Nat) : Int) - 1)) :=
  have h := receives_into_cleared_buffer_keep_the_last_n
    ((symbolic 1).addCommPartner 1 1 1 2 0 0 "p").state Staged.made Staged.released 1 0 2
    [(0, 0, ⟨7, 0, 0⟩), (0, 0, ⟨8, 0, 0⟩), (0, 0, ⟨9, 0, 0⟩)]
    rfl rfl (by decide!) (by decide!) (by decide!) (by decide!) (by decide!) (by decide)
    (by decide) (by decide!) (by decide!) (by decide)
  ⟨⟨by decide!, by decide!, by decide!⟩, h.2.2.2.1, h.2.2.2.2.2.2.1,
    (h.2.2.2.2.2.2.2.2 (by decide)).2.1⟩

/-! ### The claims -/

/-- C1, the code at a failing input: one partner of rx capacity 1, one successful receive, then
two receives whose dequeue fails. The allocate callback ran once, the destroy callback ran
twice, both times on staging slot 0, the second time on the object it had already released;
the same happens when `manualDeleteAllocatedData` is followed by one more `readFromQueue`. -/
theorem C1_code_destroys_a_staged_object_twice :
    (run (symbolic 1) [Op.addCommPartner 1 1 1 1 0 0 "p",
        Op.readFromQueue 1 0 0 true (some ⟨7, 0, 0⟩),
        Op.readFromQueue 1 0 0 true none,
        Op.readFromQueue 1 0 0 true none]).2.filter (fun c => !isLockCall c && !isQueueCall c)
      = [Call.dataAllocator ⟨7, 0, 0⟩ 0 (Staged.made ⟨7, 0, 0⟩ Staged.unset),
         Call.dataDestroyer 0 (Staged.made ⟨7, 0, 0⟩ Staged.unset),
         Call.dataDestroyer 0 (Staged.released (Staged.made ⟨7, 0, 0⟩ Staged.unset))]
    ∧ (run (symbolic 1) [Op.addCommPartner 1 1 1 1 0 0 "p",
        Op.readFromQueue 1 0 0 true (some ⟨7, 0, 0⟩),
        Op.manualDeleteAllocatedData 1,
        Op.readFromQueue 1 0 0 true none]).2.filter (fun c => !isLockCall c && !isQueueCall c)
      = [Call.dataAllocator ⟨7, 0, 0⟩ 0 (Staged.made ⟨7, 0, 0⟩ Staged.unset),
         Call.dataDestroyer 0 (Staged.made ⟨7, 0, 0⟩ Staged.unset),
         Call.dataDestroyer 0 (Staged.released (Staged.made ⟨7, 0, 0⟩ Staged.unset))] := by
  constructor <;> decide!

/-- C2: on a partner of rx capacity `n >= 1` whose staging buffer holds `n` entries with
`rxQueueFull` set, a `readFromQueue` that acquires the lock and dequeues `msg` returns true and
makes exactly these calls, in this order: take the lock, destroy the entry of slot 0, receive,
allocate into slot `n - 1`, give the lock. Afterwards the entries formerly at `1 .. n-1` sit at
`0 .. n-2`, slot `n - 1` holds what the allocate callback made of `msg`, the occupancy index is
again `n - 1` and both buffer flags are set. For `n = 1` the allocate callback is handed slot 0
as the destroy callback left it. -/
theorem C2_full_receive_evicts_oldest_then_allocates (self : FRTTransceiver T)
    (allocate : DataContainerOnQueue → T → T)
    (destroy : T → T) (source pos n : Nat) (blockTimeRead blockTimeTakeSemaphore : Int)
    (msg : DataContainerOnQueue)
    (hA : self._dataAllocator = some allocate) (hD : self._dataDestroyer = some destroy)
    (hcount : self._u8CurrCommPartners ≤ 255)
    (hpos : self._getCommStruct source = (pos : Int))
    (hsem : (self._structCommPartners pos).semaphore ≠ 0)
    (hrx : (self._structCommPartners pos).rxQueue ≠ 0)
    (hlock : -1 ≤ blockTimeTakeSemaphore) (hread : -1 ≤ blockTimeRead)
    (hn : 1 ≤ n) (hn128 : n ≤ 128)
    (hcap : (self._structCommPartners pos).u8RxQueueLength = n)
    (hocc : (self._structCommPartners pos).i8CurrTempcontainerPos = (n : Int) - 1)
    (hfull : (self._structCommPartners pos).rxQueueFull = true) :
    (let p := self._structCommPartners pos
    let r := self.readFromQueue source blockTimeRead blockTimeTakeSemaphore true (some msg)
    let q := r.state._structCommPartners pos
    r.ret = true
    ∧ r.calls = [Call.xSemaphoreTake p.semaphore (toTicks blockTimeTakeSemaphore),
        Call.dataDestroyer 0 (p.tempContainer 0),
        Call.xQueueReceive p.rxQueue (toTicks blockTimeRead),
        Call.dataAllocator msg ((n : Int) - 1) (q.tempContainer ((n : Int) - 1)),
        Call.xSemaphoreGive p.semaphore]
    ∧ (∀ j : Int, 0 ≤ j → j < (n : Int) - 1 → q.tempContainer j = p.tempContainer (j + 1))
    ∧ q.tempContainer ((n : Int) - 1)
        = allocate msg (if n = 1 then destroy (p.tempContainer 0)
            else p.tempContainer ((n : Int) - 1))
    ∧ q.i8CurrTempcontainerPos = (n : Int) - 1
    ∧ q.rxQueueFull = true
    ∧ q.hasBufferedData = true) := by
  intro p r q
  have hI := hasDataInterpreters_of_set self allocate destroy hA hD
  have hS := hasSemaphore_of_found self source pos hpos hsem
  have hlt := getCommStruct_lt self source pos hpos
  have hmod : pos % 256 = pos := Nat.mod_eq_of_lt (by omega)
  have hw1 : wrapI8 ((n : Int) - 1 - 1) = (n : Int) - 2 := by
    rw [wrapI8_of_range] <;> omega
  have hw2 : wrapI8 ((n : Int) - 2 + 1) = (n : Int) - 1 := by
    rw [wrapI8_of_range] <;> omega
  have hne : (pos : Int) ≠ -1 := by omega
  have hev := evictOldest_full self destroy pos n hD (by omega) hn hn128 hcap hocc
  simp only [r, q, p, readFromQueue, hI, hS, hpos, Int.toNat_ofNat, hrx, hfull,
    checkWaitTime_of_valid _ hlock, checkWaitTime_of_valid _ hread, hev]
  have hl2 : blockTimeTakeSemaphore ≠ -2 := by omega
  have hr2 : blockTimeRead ≠ -2 := by omega
  have hlast : ¬ ((n : Int) - 1 < (n : Int) - 1) := by omega
  simp [hl2, hr2, hw2, hcap, callAllocator, hA, hlast]
  constructor
  · intro j h0 hj
    rw [Function.update_noteq (by omega), if_pos ⟨h0, hj⟩]
  · by_cases h1 : n = 1
    · subst h1
      simp
    · have h3 : (n : Int) - 1 ≠ 0 := by omega
      rw [if_neg h3, if_neg h1]

/-- C2 at a concrete input: the full staging buffer of `stagedTwo` (capacity 2, entries made
from the envelopes 7 and 8) receives the envelope 9. -/
theorem C2_full_receive_witness :
    ((stagedTwo._structCommPartners 0).u8RxQueueLength = 2
      ∧ (stagedTwo._structCommPartners 0).i8CurrTempcontainerPos = 1
      ∧ (stagedTwo._structCommPartners 0).rxQueueFull = true)
    ∧ (let p := stagedTwo._structCommPartners 0
      let r := stagedTwo.readFromQueue 1 0 0 true (some ⟨9, 0, 0⟩)
      let q := r.state._structCommPartners 0
      r.ret = true
      ∧ r.calls = [Call.xSemaphoreTake p.semaphore (toTicks 0),
          Call.dataDestroyer 0 (p.tempContainer 0),
          Call.xQueueReceive p.rxQueue (toTicks 0),
          Call.dataAllocator ⟨9, 0, 0⟩ (((2 : Nat) : Int) - 1)
            (q.tempContainer (((2 : Nat) : Int) - 1)),
          Call.xSemaphoreGive p.semaphore]
      ∧ (∀ j : Int, 0 ≤ j → j < ((2 : Nat) : Int) - 1 →
          q.tempContainer j = p.tempContainer (j + 1))
      ∧ q.tempContainer (((2 : Nat) : Int) - 1)
          = Staged.made ⟨9, 0, 0⟩ (if 2 = 1 then Staged.released (p.tempContainer 0)
              else p.tempContainer (((2 : Nat) : Int) - 1))
      ∧ q.i8CurrTempcontainerPos = ((2 : Nat) : Int) - 1
      ∧ q.rxQueueFull = true
      ∧ q.hasBufferedData = true) :=
  ⟨⟨rfl, rfl, rfl⟩,
    C2_full_receive_evicts_oldest_then_allocates stagedTwo Staged.made Staged.released 1 0 2 0 0
      ⟨9, 0, 0⟩ rfl rfl (by decide) (by decide) (by decide) (by decide) (by decide) (by decide)
      (by decide) (by decide) rfl rfl rfl⟩

/-- C3, the code at a failing input: a partner registered with rx capacity 0 holds one staged
entry after one successful receive, and a partner of rx capacity 2 that is full and is then
rebound by `addCommQueue` to capacity 1 holds two staged entries. -/
theorem C3_code_stages_more_than_the_declared_capacity :
    (let p := (run (symbolic 1) [Op.addCommPartner 1 1 1 0 0 0 "p",
        Op.readFromQueue 1 0 0 true (some ⟨7, 0, 0⟩)]).1._structCommPartners 0
     p.i8CurrTempcontainerPos + 1 = 1 ∧ p.u8RxQueueLength = 0)
    ∧ (let p := (run (symbolic 1) [Op.addCommPartner 1 1 1 2 0 0 "p",
        Op.readFromQueue 1 0 0 true (some ⟨7, 0, 0⟩),
        Op.readFromQueue 1 0 0 true (some ⟨8, 0, 0⟩),
        Op.addCommQueue 1 1 1 false]).1._structCommPartners 0
     p.i8CurrTempcontainerPos + 1 = 2 ∧ p.u8RxQueueLength = 1) := by
  constructor <;> decide!

/-- C4, the code at a failing input: after one successful receive and a
`manualDeleteAllocatedData`, `hasDataFrom` answers false while the occupancy index is 0; and
after one successful receive on a capacity-1 partner followed by a receive whose dequeue fails,
`hasDataFrom` answers true while the occupancy index is -1. -/
theorem C4_code_flag_and_occupancy_disagree :
    (let s := (run (symbolic 1) [Op.addCommPartner 1 1 1 2 0 0 "p",
        Op.readFromQueue 1 0 0 true (some ⟨7, 0, 0⟩),
        Op.manualDeleteAllocatedData 1]).1
     s.hasDataFrom 1 = false ∧ (s._structCommPartners 0).i8CurrTempcontainerPos = 0)
    ∧ (let s := (run (symbolic 1) [Op.addCommPartner 1 1 1 1 0 0 "p",
        Op.readFromQueue 1 0 0 true (some ⟨7, 0, 0⟩),
        Op.readFromQueue 1 0 0 true none]).1
     s.hasDataFrom 1 = true ∧ (s._structCommPartners 0).i8CurrTempcontainerPos = -1) := by
  constructor <;> decide!

/-- C5, the code at a failing input: partners 1 and 2 are registered at registry positions 0
and 1 and each holds one staged entry; `manualDeleteAllAllocatedDataForLine(2)` invokes the
destroy callback on the entry of partner 1 and empties the record of partner 1, and leaves the
record of partner 2 with its entry, occupancy index 0 and `hasBufferedData` set. -/
theorem C5_code_deletes_the_line_of_registry_position_zero :
    (let before := (run (symbolic 2) [Op.addCommPartner 1 1 1 2 0 0 "a",
        Op.addCommPartner 2 2 2 2 0 0 "b",
        Op.readFromQueue 1 0 0 true (some ⟨7, 0, 0⟩),
        Op.readFromQueue 2 0 0 true (some ⟨8, 0, 0⟩)]).1
    let r := before.manualDeleteAllAllocatedDataForLine 2
    before._getCommStruct 2 = 1
    ∧ r.calls = [Call.dataDestroyer 0 (Staged.made ⟨7, 0, 0⟩ Staged.unset)]
    ∧ (r.state._structCommPartners 0).i8CurrTempcontainerPos = -1
    ∧ (r.state._structCommPartners 0).hasBufferedData = false
    ∧ (r.state._structCommPartners 1).i8CurrTempcontainerPos = 0
    ∧ (r.state._structCommPartners 1).hasBufferedData = true
    ∧ (r.state._structCommPartners 1).tempContainer 0
        = Staged.made ⟨8, 0, 0⟩ Staged.unset) := by
  decide!

/-- C6 fails as stated: with lock timeout 0 and queue-operation timeout -5 (negative, not the
sentinel), `writeToQueue` and `readFromQueue` both return false but have called the lock
primitive twice, one acquire and one release. -/
theorem C6_invalid_queue_timeout_still_takes_the_lock :
    (let w := stagedTwo.writeToQueue 10 1 0 5 (-5) 0 0 true 0 true
    let r := stagedTwo.readFromQueue 1 (-5) 0 true (some ⟨9, 0, 0⟩)
    (-5 : Int) < 0 ∧ (-5 : Int) ≠ FRTTRANSCEIVER_WAITMAX
    ∧ w.ret = false ∧ w.calls = [Call.xSemaphoreTake 1 (toTicks 0), Call.xSemaphoreGive 1]
    ∧ r.ret = false ∧ r.calls = [Call.xSemaphoreTake 1 (toTicks 0), Call.xSemaphoreGive 1]
    ∧ w.calls.filter isLockCall ≠ [] ∧ r.calls.filter isLockCall ≠ []) := by
  decide!

/-- C6 as amended: a call of `writeToQueue` or `readFromQueue` whose lock timeout or
queue-operation timeout is below -1 returns false and leaves the state as it was; when the lock
timeout is below -1 it makes no call at all; otherwise its calls are none, one acquire that
failed, or one acquire followed by one release, so the queue primitive and the callbacks are
never reached. -/
theorem C6_invalid_timeout_fails_without_queue_calls (maxElements : Nat) (self : FRTTransceiver T)
    (partner u8DataType data : Nat) (blockTime blockTimeTakeSemaphore : Int)
    (additionalData : Nat) (takeOk : Bool) (depth : Nat) (sendOk : Bool)
    (received : Option DataContainerOnQueue)
    (h : blockTimeTakeSemaphore < -1 ∨ blockTime < -1) :
    (let w := self.writeToQueue maxElements partner u8DataType data blockTime
      blockTimeTakeSemaphore additionalData takeOk depth sendOk
    let r := self.readFromQueue partner blockTime blockTimeTakeSemaphore takeOk received
    let lock := (self._structCommPartners (self._getCommStruct partner).toNat).semaphore
    let take : Call T := Call.xSemaphoreTake lock (toTicks blockTimeTakeSemaphore)
    let give : Call T := Call.xSemaphoreGive lock
    (w.ret = false ∧ w.state = self
      ∧ (blockTimeTakeSemaphore < -1 → w.calls = [])
      ∧ (w.calls = [] ∨ (takeOk = false ∧ w.calls = [take])
          ∨ (takeOk = true ∧ w.calls = [take, give])))
    ∧ (r.ret = false ∧ r.state = self
      ∧ (blockTimeTakeSemaphore < -1 → r.calls = [])
      ∧ (r.calls = [] ∨ (takeOk = false ∧ r.calls = [take])
          ∨ (takeOk = true ∧ r.calls = [take, give])))) := by
  intro w r lock take give
  constructor
  · rcases writeToQueue_paths maxElements self partner u8DataType data blockTime
      blockTimeTakeSemaphore additionalData takeOk depth sendOk with
      ⟨_, hw⟩ | ⟨hp, ht, hw⟩ | ⟨hp, ht, _, hw⟩ | ⟨hp, _, hb, _, _⟩ | ⟨hp, _, hb, _, _⟩
    · have hw' : w = ⟨self, false, []⟩ := hw
      rw [hw']
      exact ⟨rfl, rfl, fun _ => rfl, Or.inl rfl⟩
    · have hw' : w = ⟨self, false, [take]⟩ := hw
      rw [hw']
      refine ⟨rfl, rfl, fun hl => ?_, Or.inr (Or.inl ⟨ht, rfl⟩)⟩
      have := hp.2.2.2.2.2.2
      omega
    · have hw' : w = ⟨self, false, [take, give]⟩ := hw
      rw [hw']
      refine ⟨rfl, rfl, fun hl => ?_, Or.inr (Or.inr ⟨ht, rfl⟩)⟩
      have := hp.2.2.2.2.2.2
      omega
    · have := hp.2.2.2.2.2.2
      omega
    · have := hp.2.2.2.2.2.2
      omega
  · rcases readFromQueue_paths self partner blockTime blockTimeTakeSemaphore takeOk received with
      ⟨_, hr⟩ | ⟨hp, ht, hr⟩ | ⟨hp, ht, _, hr⟩ | ⟨hp, _, hb, _, _⟩ | ⟨hp, _, hb, _⟩
    · have hr' : r = ⟨self, false, []⟩ := hr
      rw [hr']
      exact ⟨rfl, rfl, fun _ => rfl, Or.inl rfl⟩
    · have hr' : r = ⟨self, false, [take]⟩ := hr
      rw [hr']
      refine ⟨rfl, rfl, fun hl => ?_, Or.inr (Or.inl ⟨ht, rfl⟩)⟩
      have := hp.2.2.2.2
      omega
    · have hr' : r = ⟨self, false, [take, give]⟩ := hr
      rw [hr']
      refine ⟨rfl, rfl, fun hl => ?_, Or.inr (Or.inr ⟨ht, rfl⟩)⟩
      have := hp.2.2.2.2
      omega
    · have := hp.2.2.2.2
      omega
    · have := hp.2.2.2.2
      omega

/-- C6 as amended, at a concrete input: lock timeout 0 and queue-operation timeout -5 on
`stagedTwo`. -/
theorem C6_invalid_timeout_witness :
    ((0 : Int) < -1 ∨ (-5 : Int) < -1)
    ∧ (stagedTwo.writeToQueue 10 1 0 5 (-5) 0 0 true 0 true).ret = false
    ∧ (stagedTwo.readFromQueue 1 (-5) 0 true (some ⟨9, 0, 0⟩)).state = stagedTwo :=
  have h := C6_invalid_timeout_fails_without_queue_calls 10 stagedTwo 1 0 5 (-5) 0 0 true 0 true
    (some ⟨9, 0, 0⟩)
    (Or.inr (by decide))
  ⟨Or.inr (by decide), h.1.1, h.2.2.1⟩

/-- C7: a `writeToQueue` that passes its precondition checks and acquires the lock, while the
tx queue's depth equals the declared tx capacity, returns false, leaves the state (and so the
scratch array) as it was, makes no enqueue call and releases the lock exactly once; its calls
are acquire, release when the write timeout is invalid and acquire, depth query, release
otherwise. -/
theorem C7_full_tx_queue_fails_without_enqueue (maxElements : Nat) (self : FRTTransceiver T)
    (destination pos u8DataType data : Nat) (blockTimeWrite blockTimeTakeSemaphore : Int)
    (additionalData depth : Nat) (sendOk : Bool)
    (hA : self._dataAllocator.isSome = true) (hD : self._dataDestroyer.isSome = true)
    (hpos : self._getCommStruct destination = (pos : Int))
    (hsem : (self._structCommPartners pos).semaphore ≠ 0)
    (htx : (self._structCommPartners pos).txQueue ≠ 0)
    (hlen : 0 < (self._structCommPartners pos).u8TxQueueLength
      ∧ (self._structCommPartners pos).u8TxQueueLength ≤ maxElements)
    (hu8 : (self._structCommPartners pos).u8TxQueueLength < 256)
    (hdata : data ≠ 0) (hlock : -1 ≤ blockTimeTakeSemaphore)
    (hfull : depth = (self._structCommPartners pos).u8TxQueueLength) :
    (let p := self._structCommPartners pos
    let w := self.writeToQueue maxElements destination u8DataType data blockTimeWrite
      blockTimeTakeSemaphore additionalData true depth sendOk
    let take : Call T := Call.xSemaphoreTake p.semaphore (toTicks blockTimeTakeSemaphore)
    let give : Call T := Call.xSemaphoreGive p.semaphore
    w.ret = false
    ∧ w.state = self
    ∧ w.calls.countP isSendCall = 0
    ∧ w.calls.countP isGiveCall = 1
    ∧ (w.calls = [take, give]
      ∨ w.calls = [take, Call.uxQueueMessagesWaiting p.txQueue, give])) := by
  intro p w take give
  have hposI : (self._getCommStruct destination).toNat = pos := by rw [hpos]; rfl
  have hmod : depth % 256 = depth := Nat.mod_eq_of_lt (by omega)
  have hpass : self._hasDataInterpreters = true ∧ self._hasSemaphore destination = true
      ∧ self._getCommStruct destination ≠ -1
      ∧ (self._structCommPartners (self._getCommStruct destination).toNat).txQueue ≠ 0
      ∧ _checkValidQueueLength maxElements
          (self._structCommPartners (self._getCommStruct destination).toNat).u8TxQueueLength = true
      ∧ data ≠ 0 ∧ -1 ≤ blockTimeTakeSemaphore := by
    rw [hposI]
    refine ⟨(hasDataInterpreters_iff self).2 ⟨hA, hD⟩,
      hasSemaphore_of_found self destination pos hpos hsem, ?_, htx,
      (checkValidQueueLength_iff _ _).2 hlen, hdata, hlock⟩
    rw [hpos]
    omega
  have hpaths := writeToQueue_paths maxElements self destination u8DataType data blockTimeWrite
    blockTimeTakeSemaphore additionalData true depth sendOk
  simp only [hposI] at hpaths
  rcases hpaths with ⟨hn, _⟩ | ⟨_, ht, _⟩ | ⟨_, _, _, hw⟩ | ⟨_, _, _, _, hw⟩ | ⟨_, _, _, hne, _⟩
  · rw [hposI] at hpass
    exact absurd hpass hn
  · exact Bool.noConfusion ht
  · have hw' : w = ⟨self, false, [take, give]⟩ := hw
    rw [hw']
    exact ⟨rfl, rfl, rfl, rfl, Or.inl rfl⟩
  · have hw' : w = ⟨self, false, [take, Call.uxQueueMessagesWaiting p.txQueue, give]⟩ := hw
    rw [hw']
    exact ⟨rfl, rfl, rfl, rfl, Or.inr rfl⟩
  · exact absurd (by rw [hmod]; exact hfull.symm) hne

/-- C7 at a concrete input: partner 1 of `stagedTwo` has tx capacity 2 and the queue reports
depth 2. -/
theorem C7_full_tx_queue_witness :
    (stagedTwo._structCommPartners 0).u8TxQueueLength = 2
    ∧ (stagedTwo.writeToQueue 10 1 0 5 0 0 0 true 2 true).ret = false
    ∧ (stagedTwo.writeToQueue 10 1 0 5 0 0 0 true 2 true).calls.countP isSendCall = 0
    ∧ (stagedTwo.writeToQueue 10 1 0 5 0 0 0 true 2 true).calls.countP isGiveCall = 1 :=
  have h := C7_full_tx_queue_fails_without_enqueue 10 stagedTwo 1 0 0 5 0 0 0 2 true rfl rfl
    (by decide) (by decide) (by decide)
    (by decide) (by decide) (by decide) (by decide) rfl
  ⟨rfl, h.1, h.2.2.1, h.2.2.2.1⟩

/-- C8: on every path of `writeToQueue` and of `readFromQueue` the calls into the lock primitive
are none (the lock is never touched), or one acquire that failed and no release, or one
successful acquire followed by exactly one release of the same lock, the release being the
last call before the operation returns. -/
theorem C8_lock_released_once_iff_acquired (maxElements : Nat) (self : FRTTransceiver T)
    (partner u8DataType data : Nat)
    (blockTime blockTimeTakeSemaphore : Int) (additionalData : Nat) (takeOk : Bool)
    (depth : Nat) (sendOk : Bool) (received : Option DataContainerOnQueue) :
    (let w := self.writeToQueue maxElements partner u8DataType data blockTime
      blockTimeTakeSemaphore additionalData takeOk depth sendOk
    let r := self.readFromQueue partner blockTime blockTimeTakeSemaphore takeOk received
    let lock := (self._structCommPartners (self._getCommStruct partner).toNat).semaphore
    let take : Call T := Call.xSemaphoreTake lock (toTicks blockTimeTakeSemaphore)
    let give : Call T := Call.xSemaphoreGive lock
    (w.calls.filter isLockCall = []
      ∨ (takeOk = false ∧ w.calls.filter isLockCall = [take])
      ∨ (takeOk = true ∧ w.calls.filter isLockCall = [take, give]
          ∧ w.calls.getLast? = some give))
    ∧ (r.calls.filter isLockCall = []
      ∨ (takeOk = false ∧ r.calls.filter isLockCall = [take])
      ∨ (takeOk = true ∧ r.calls.filter isLockCall = [take, give]
          ∧ r.calls.getLast? = some give))) := by
  intro w r lock take give
  constructor
  · rcases writeToQueue_paths maxElements self partner u8DataType data blockTime
      blockTimeTakeSemaphore additionalData takeOk depth sendOk with
      ⟨_, hw⟩ | ⟨_, ht, hw⟩ | ⟨_, ht, _, hw⟩ | ⟨_, ht, _, _, hw⟩ | ⟨_, ht, _, _, hw⟩
    · have hw' : w.calls = [] := congrArg Outcome.calls hw
      rw [hw']
      exact Or.inl rfl
    · have hw' : w.calls = [take] := congrArg Outcome.calls hw
      rw [hw']
      exact Or.inr (Or.inl ⟨ht, rfl⟩)
    · have hw' : w.calls = [take, give] := congrArg Outcome.calls hw
      rw [hw']
      exact Or.inr (Or.inr ⟨ht, rfl, rfl⟩)
    · have hw' := congrArg Outcome.calls hw
      have hw2 : w.calls = _ := hw'
      rw [hw2]
      exact Or.inr (Or.inr ⟨ht, rfl, rfl⟩)
    · have hw' := congrArg Outcome.calls hw
      have hw2 : w.calls = _ := hw'
      rw [hw2]
      exact Or.inr (Or.inr ⟨ht, rfl, rfl⟩)
  · rcases readFromQueue_paths self partner blockTime blockTimeTakeSemaphore takeOk received with
      ⟨_, hr⟩ | ⟨_, ht, hr⟩ | ⟨_, ht, _, hr⟩ | ⟨_, ht, _, _, hr⟩
        | ⟨_, ht, _, msg, slot, produced, _, _, hr⟩
    · have hr' : r.calls = [] := congrArg Outcome.calls hr
      rw [hr']
      exact Or.inl rfl
    · have hr' : r.calls = [take] := congrArg Outcome.calls hr
      rw [hr']
      exact Or.inr (Or.inl ⟨ht, rfl⟩)
    · have hr' : r.calls = [take, give] := congrArg Outcome.calls hr
      rw [hr']
      exact Or.inr (Or.inr ⟨ht, rfl, rfl⟩)
    · have hr' := congrArg Outcome.calls hr
      have hr2 : r.calls = _ := hr'
      rw [hr2]
      refine Or.inr (Or.inr ⟨ht, ?_, ?_⟩)
      · by_cases hf : (self._structCommPartners (self._getCommStruct partner).toNat).rxQueueFull
            = true
        · simp [hf, isLockCall, List.filter, take, give, lock]
        · simp [hf, isLockCall, List.filter, take, give, lock]
      · exact getLast?_append_two _ _ _
    · have hr2 : r.calls = _ := hr
      rw [hr2]
      refine Or.inr (Or.inr ⟨ht, ?_, ?_⟩)
      · by_cases hf : (self._structCommPartners (self._getCommStruct partner).toNat).rxQueueFull
            = true
        · simp [hf, isLockCall, List.filter, take, give, lock]
        · simp [hf, isLockCall, List.filter, take, give, lock]
      · exact getLast?_append_three _ _ _ _

/-- C9: with a queue depth that fits the `uint8_t` it is stored in, `writeToQueue` returns true
exactly when both callbacks are set, the destination is registered with a lock, its tx queue is
present with declared capacity in `(0, maxElements]`, `data` is not null, the lock timeout is
valid, the lock is acquired, the write timeout is valid, the depth differs from the declared
capacity and the enqueue succeeds; and then the only enqueue call is on the destination's tx
queue with the envelope made of `data`, `u8DataType` and `additionalData`. -/
theorem C9_writeToQueue_true_iff (maxElements : Nat) (self : FRTTransceiver T)
    (destination u8DataType data : Nat) (blockTimeWrite blockTimeTakeSemaphore : Int)
    (additionalData : Nat) (takeOk : Bool) (depth : Nat) (sendOk : Bool)
    (hdepth : depth < 256) :
    (let w := self.writeToQueue maxElements destination u8DataType data blockTimeWrite
      blockTimeTakeSemaphore additionalData takeOk depth sendOk
    let pos := self._getCommStruct destination
    let p := self._structCommPartners pos.toNat
    (w.ret = true ↔
      (self._dataAllocator.isSome = true ∧ self._dataDestroyer.isSome = true
        ∧ pos ≠ -1 ∧ p.semaphore ≠ 0
        ∧ p.txQueue ≠ 0 ∧ 0 < p.u8TxQueueLength ∧ p.u8TxQueueLength ≤ maxElements
        ∧ data ≠ 0
        ∧ -1 ≤ blockTimeTakeSemaphore ∧ takeOk = true
        ∧ -1 ≤ blockTimeWrite ∧ depth ≠ p.u8TxQueueLength ∧ sendOk = true))
    ∧ (w.ret = true →
        w.calls.filter isSendCall
          = [Call.xQueueSendToBack p.txQueue ⟨data, u8DataType, additionalData⟩
              (toTicks blockTimeWrite)])) := by
  intro w pos p
  have hmod : depth % 256 = depth := Nat.mod_eq_of_lt hdepth
  have hpassIff : (self._hasDataInterpreters = true ∧ self._hasSemaphore destination = true
      ∧ pos ≠ -1 ∧ p.txQueue ≠ 0 ∧ _checkValidQueueLength maxElements p.u8TxQueueLength = true
      ∧ data ≠ 0 ∧ -1 ≤ blockTimeTakeSemaphore)
      ↔ (self._dataAllocator.isSome = true ∧ self._dataDestroyer.isSome = true
        ∧ pos ≠ -1 ∧ p.semaphore ≠ 0
        ∧ p.txQueue ≠ 0 ∧ 0 < p.u8TxQueueLength ∧ p.u8TxQueueLength ≤ maxElements
        ∧ data ≠ 0 ∧ -1 ≤ blockTimeTakeSemaphore) := by
    rw [hasDataInterpreters_iff, hasSemaphore_iff, checkValidQueueLength_iff]
    constructor
    · rintro ⟨⟨a, b⟩, ⟨c, d⟩, _, e, ⟨f, g⟩, h, i⟩
      exact ⟨a, b, c, d, e, f, g, h, i⟩
    · rintro ⟨a, b, c, d, e, f, g, h, i⟩
      exact ⟨⟨a, b⟩, ⟨c, d⟩, c, e, ⟨f, g⟩, h, i⟩
  rcases writeToQueue_paths maxElements self destination u8DataType data blockTimeWrite
      blockTimeTakeSemaphore additionalData takeOk depth sendOk with
      ⟨hn, hw⟩ | ⟨_, ht, hw⟩ | ⟨_, _, hb, hw⟩ | ⟨_, _, _, hfull, hw⟩ | ⟨hp, ht, hb, hne, hw⟩
  · have hw' : w = ⟨self, false, []⟩ := hw
    rw [hw']
    refine ⟨⟨fun h => Bool.noConfusion h, ?_⟩, fun h => Bool.noConfusion h⟩
    rintro ⟨a, b, c, d, e, f, g, h, i, _⟩
    exact absurd (hpassIff.2 ⟨a, b, c, d, e, f, g, h, i⟩) hn
  · have hw' : w = ⟨self, false, _⟩ := hw
    rw [hw']
    refine ⟨⟨fun h => Bool.noConfusion h, ?_⟩, fun h => Bool.noConfusion h⟩
    rintro ⟨_, _, _, _, _, _, _, _, _, j, _⟩
    rw [ht] at j
    exact Bool.noConfusion j
  · have hw' : w = ⟨self, false, _⟩ := hw
    rw [hw']
    refine ⟨⟨fun h => Bool.noConfusion h, ?_⟩, fun h => Bool.noConfusion h⟩
    rintro ⟨_, _, _, _, _, _, _, _, _, _, k, _⟩
    omega
  · have hw' : w = ⟨self, false, _⟩ := hw
    rw [hw']
    refine ⟨⟨fun h => Bool.noConfusion h, ?_⟩, fun h => Bool.noConfusion h⟩
    rintro ⟨_, _, _, _, _, _, _, _, _, _, _, l, _⟩
    rw [hmod] at hfull
    exact absurd hfull.symm l
  · have hw' : w = ⟨_, sendOk, _⟩ := hw
    rw [hw']
    rw [hmod] at hne
    obtain ⟨a, b, c, d, e, f, g, h, i⟩ := hpassIff.1 hp
    refine ⟨⟨fun hs => ⟨a, b, c, d, e, f, g, h, i, ht, hb, fun hd => hne hd.symm, hs⟩,
      fun hs => hs.2.2.2.2.2.2.2.2.2.2.2.2⟩, fun _ => rfl⟩

/-- C9 at concrete inputs: on `stagedTwo` a send at depth 1 of capacity 2 succeeds with one
enqueue, a send at depth 2 does not return true. -/
theorem C9_writeToQueue_witness :
    (2 : Nat) < 256 ∧ (1 : Nat) < 256
    ∧ (stagedTwo.writeToQueue 10 1 0 5 0 0 0 true 1 true).ret = true
    ∧ (stagedTwo.writeToQueue 10 1 0 5 0 0 0 true 1 true).calls.filter isSendCall
        = [Call.xQueueSendToBack 2 ⟨5, 0, 0⟩ (toTicks 0)]
    ∧ (stagedTwo.writeToQueue 10 1 0 5 0 0 0 true 2 true).ret ≠ true :=
  have h := C9_writeToQueue_true_iff 10 stagedTwo 1 0 5 0 0 0 true 1 true (by decide)
  have h2 := C9_writeToQueue_true_iff 10 stagedTwo 1 0 5 0 0 0 true 2 true (by decide)
  have hr : (stagedTwo.writeToQueue 10 1 0 5 0 0 0 true 1 true).ret = true :=
    h.1.2 (by decide)
  ⟨by decide, by decide, hr, h.2 hr, fun hret => (h2.1.1 hret).2.2.2.2.2.2.2.2.2.2.2.1 rfl⟩

/-- C10: when a callback is missing, the source is unknown, it has no lock or no rx queue, the
lock timeout is invalid, the lock acquisition fails or the read timeout is invalid,
`readFromQueue` returns false, the whole state (every staging buffer, occupancy index and
flag) is unchanged, and neither callback is invoked: no eviction has taken place. -/
theorem C10_early_failure_leaves_staging_untouched (self : FRTTransceiver T) (source : Nat)
    (blockTimeRead blockTimeTakeSemaphore : Int) (takeOk : Bool)
    (received : Option DataContainerOnQueue)
    (h : self._dataAllocator = none ∨ self._dataDestroyer = none
      ∨ self._getCommStruct source = -1
      ∨ (self._structCommPartners (self._getCommStruct source).toNat).semaphore = 0
      ∨ (self._structCommPartners (self._getCommStruct source).toNat).rxQueue = 0
      ∨ blockTimeTakeSemaphore < -1 ∨ takeOk = false ∨ blockTimeRead < -1) :
    (let r := self.readFromQueue source blockTimeRead blockTimeTakeSemaphore takeOk received
    r.ret = false ∧ r.state = self ∧ allocated r.calls = [] ∧ destroyed r.calls = []) := by
  intro r
  have hblock : ∀ (_ : self._hasDataInterpreters = true ∧ self._hasSemaphore source = true
      ∧ self._getCommStruct source ≠ -1
      ∧ (self._structCommPartners (self._getCommStruct source).toNat).rxQueue ≠ 0
      ∧ -1 ≤ blockTimeTakeSemaphore) (_ : takeOk = true) (_ : -1 ≤ blockTimeRead), False := by
    rintro ⟨hI, hS, hpos, hrx, hl⟩ ht hb
    rw [hasDataInterpreters_iff] at hI
    rw [hasSemaphore_iff] at hS
    rcases h with h | h | h | h | h | h | h | h
    · rw [h] at hI
      exact Bool.noConfusion hI.1
    · rw [h] at hI
      exact Bool.noConfusion hI.2
    · exact hpos h
    · exact hS.2 h
    · exact hrx h
    · omega
    · rw [h] at ht
      exact Bool.noConfusion ht
    · omega
  rcases readFromQueue_paths self source blockTimeRead blockTimeTakeSemaphore takeOk received with
      ⟨_, hr⟩ | ⟨_, _, hr⟩ | ⟨_, _, _, hr⟩ | ⟨hp, ht, hb, _⟩ | ⟨hp, ht, hb, _⟩
  · have hr' : r = ⟨self, false, _⟩ := hr
    rw [hr']
    exact ⟨rfl, rfl, rfl, rfl⟩
  · have hr' : r = ⟨self, false, _⟩ := hr
    rw [hr']
    exact ⟨rfl, rfl, rfl, rfl⟩
  · have hr' : r = ⟨self, false, _⟩ := hr
    rw [hr']
    exact ⟨rfl, rfl, rfl, rfl⟩
  · exact (hblock hp ht hb).elim
  · exact (hblock hp ht hb).elim

/-- C10 at a concrete input: an invalid read timeout on the full staging buffer of
`stagedTwo`. -/
theorem C10_early_failure_witness :
    ((stagedTwo._dataAllocator = none ∨ stagedTwo._dataDestroyer = none
      ∨ stagedTwo._getCommStruct 1 = -1
      ∨ (stagedTwo._structCommPartners (stagedTwo._getCommStruct 1).toNat).semaphore = 0
      ∨ (stagedTwo._structCommPartners (stagedTwo._getCommStruct 1).toNat).rxQueue = 0
      ∨ (0 : Int) < -1 ∨ true = false ∨ (-5 : Int) < -1))
    ∧ (stagedTwo.readFromQueue 1 (-5) 0 true (some ⟨9, 0, 0⟩)).ret = false
    ∧ (stagedTwo.readFromQueue 1 (-5) 0 true (some ⟨9, 0, 0⟩)).state = stagedTwo
    ∧ destroyed (stagedTwo.readFromQueue 1 (-5) 0 true (some ⟨9, 0, 0⟩)).calls = [] :=
  have hyp : (stagedTwo._dataAllocator = none ∨ stagedTwo._dataDestroyer = none
      ∨ stagedTwo._getCommStruct 1 = -1
      ∨ (stagedTwo._structCommPartners (stagedTwo._getCommStruct 1).toNat).semaphore = 0
      ∨ (stagedTwo._structCommPartners (stagedTwo._getCommStruct 1).toNat).rxQueue = 0
      ∨ (0 : Int) < -1 ∨ true = false ∨ (-5 : Int) < -1) :=
    Or.inr (Or.inr (Or.inr (Or.inr (Or.inr (Or.inr (Or.inr (by decide)))))))
  have h := C10_early_failure_leaves_staging_untouched stagedTwo 1 (-5) 0 true
    (some ⟨9, 0, 0⟩) hyp
  ⟨hyp, h.1, h.2.1, h.2.2.2⟩

/-- C11 fails as stated: after partner 1 is registered as "a", a second
`addCommPartner` with identity 1 and name "b" returns true, and `getPartnersName(1)` called
right afterwards still returns "a". -/
theorem C11_second_registration_keeps_first_name :
    (let s := (run (symbolic 2) [Op.addCommPartner 1 1 0 0 0 0 "a"]).1
    let r := s.addCommPartner 1 1 0 0 0 0 "b"
    r.ret = true ∧ r.state.getPartnersName 1 = some "a"
    ∧ r.state.getPartnersName 1 ≠ some "b") := by
  decide!

/-- C11 as amended: in a registry whose maximum fits its `uint8_t`, when `addCommPartner`
returns true for an identity the lookup did not find before the call, `getPartnersName` of
that identity right afterwards returns exactly the name supplied; when the lookup did find the
identity before the call, `getPartnersName` returns the name of that earlier record. -/
theorem C11_getPartnersName_after_registration (self : FRTTransceiver T) (partnersAddress
    semaphore queueRX u8QueueLengthRx queueTX u8QueueLengthTx : Nat) (partnersName : String)
    (hmax : self._u8MaxPartners ≤ 255)
    (hret : (self.addCommPartner partnersAddress semaphore queueRX u8QueueLengthRx queueTX
      u8QueueLengthTx partnersName).ret = true) :
    (let r := self.addCommPartner partnersAddress semaphore queueRX u8QueueLengthRx queueTX
      u8QueueLengthTx partnersName
    (self._getCommStruct partnersAddress = -1 →
      r.state.getPartnersName partnersAddress = some partnersName)
    ∧ (self._getCommStruct partnersAddress ≠ -1 →
      r.state.getPartnersName partnersAddress = self.getPartnersName partnersAddress)) := by
  intro r
  rcases addCommPartner_paths self partnersAddress semaphore queueRX u8QueueLengthRx queueTX
      u8QueueLengthTx partnersName with
      ⟨_, hr⟩ | ⟨_, _, _, hr⟩ | ⟨hc, ha, _, _, _, hcount, _, _, _, hother, hid, _, hname⟩
  · rw [hr] at hret
    exact Bool.noConfusion hret
  · rw [hr] at hret
    exact Bool.noConfusion hret
  · have hcnt : r.state._u8CurrCommPartners = self._u8CurrCommPartners + 1 := by
      have h1 : r.state._u8CurrCommPartners = (self._u8CurrCommPartners + 1) % 256 := hcount
      rw [h1]
      exact Nat.mod_eq_of_lt (by omega)
    constructor
    · intro hnew
      rw [getCommStruct_eq_neg_one_iff] at hnew
      have hold : ∀ i, i < self._u8CurrCommPartners →
          (self._structCommPartners i).commPartner ≠ partnersAddress := by
        rcases hnew with h | h
        · exact absurd h ha
        · exact h
      have hlook : r.state._getCommStruct partnersAddress
          = (self._u8CurrCommPartners : Int) := by
        rw [getCommStruct_eq_iff]
        refine ⟨ha, by omega, hid, fun j hj => ?_⟩
        have hj2 : j ≠ self._u8CurrCommPartners := by omega
        have hsame : r.state._structCommPartners j = self._structCommPartners j := hother j hj2
        rw [hsame]
        exact hold j hj
      simp only [getPartnersName, hlook]
      rw [if_neg (by omega)]
      exact congrArg some hname
    · intro hfound
      obtain ⟨pos, hpos⟩ : ∃ pos : Nat, self._getCommStruct partnersAddress = (pos : Int) := by
        unfold _getCommStruct at hfound ⊢
        split_ifs at hfound ⊢ with h0
        · exact absurd rfl hfound
        · split at hfound
          · exact ⟨_, rfl⟩
          · exact absurd rfl hfound
      have hp := (getCommStruct_eq_iff self partnersAddress pos).1 hpos
      have hne : pos ≠ self._u8CurrCommPartners := by omega
      have hlook : r.state._getCommStruct partnersAddress = (pos : Int) := by
        rw [getCommStruct_eq_iff]
        refine ⟨hp.1, by omega, ?_, fun j hj => ?_⟩
        · have hsame : r.state._structCommPartners pos = self._structCommPartners pos :=
            hother pos hne
          rw [hsame]
          exact hp.2.2.1
        · have hj2 : j ≠ self._u8CurrCommPartners := by omega
          have hsame : r.state._structCommPartners j = self._structCommPartners j :=
            hother j hj2
          rw [hsame]
          exact hp.2.2.2 j hj
      simp only [getPartnersName, hlook, hpos]
      rw [if_neg (by omega), if_neg (by omega)]
      have hsame : r.state._structCommPartners pos = self._structCommPartners pos :=
        hother pos hne
      simp only [Int.toNat_ofNat]
      rw [hsame]

/-- C11 as amended, at a concrete input: the first registration of identity 1 under the
name "a". -/
theorem C11_getPartnersName_witness :
    ((symbolic 2)._u8MaxPartners ≤ 255
      ∧ ((symbolic 2).addCommPartner 1 1 0 0 0 0 "a").ret = true)
    ∧ ((symbolic 2).addCommPartner 1 1 0 0 0 0 "a").state.getPartnersName 1 = some "a" :=
  ⟨⟨by decide, by decide!⟩,
    (C11_getPartnersName_after_registration (symbolic 2) 1 1 0 0 0 0 "a" (by decide)
      (by decide!)).1 (by decide!)⟩

/-- C12: in a registry whose maximum fits its `uint8_t`, `addCommPartner` returns false
exactly when the partner count has reached the maximum, or the identity is null, or the lock is
null, whatever the queues and capacities. A failed call leaves the count, the maximum and the
result of every lookup and of every `getPartnersName` as they were; a successful call
increases the count by one. So a registry at its maximum refuses every further call, and in
every state reached from a fresh transceiver by public calls the count is at most the
maximum. -/
theorem C12_addCommPartner_fails_exactly_when_full_or_null (self : FRTTransceiver T)
    (partnersAddress semaphore queueRX u8QueueLengthRx queueTX u8QueueLengthTx : Nat)
    (partnersName : String) (u8MaxPartners : Nat) (dflt : T) (ops : List (Op T))
    (hself : self._u8MaxPartners ≤ 255) (hfresh : u8MaxPartners ≤ 255) :
    (let r := self.addCommPartner partnersAddress semaphore queueRX u8QueueLengthRx queueTX
      u8QueueLengthTx partnersName
    let reached := (run (FRTTransceiver.new u8MaxPartners dflt) ops).1
    (r.ret = false ↔ (self._u8CurrCommPartners ≥ self._u8MaxPartners ∨ partnersAddress = 0
        ∨ semaphore = 0))
    ∧ (r.ret = false →
        r.state._u8CurrCommPartners = self._u8CurrCommPartners
        ∧ (∀ x, r.state._getCommStruct x = self._getCommStruct x)
        ∧ (∀ x, r.state.getPartnersName x = self.getPartnersName x))
    ∧ (r.ret = true → r.state._u8CurrCommPartners = self._u8CurrCommPartners + 1)
    ∧ r.state._u8MaxPartners = self._u8MaxPartners
    ∧ (self._u8CurrCommPartners = self._u8MaxPartners → r.ret = false)
    ∧ reached._u8MaxPartners = u8MaxPartners
    ∧ reached._u8CurrCommPartners ≤ u8MaxPartners) := by
  intro r reached
  have hreach := run_count_le_max ops (FRTTransceiver.new u8MaxPartners dflt) hfresh
    (Nat.zero_le _)
  have hiff : r.ret = false ↔ (self._u8CurrCommPartners ≥ self._u8MaxPartners
      ∨ partnersAddress = 0 ∨ semaphore = 0) := by
    rcases addCommPartner_paths self partnersAddress semaphore queueRX u8QueueLengthRx queueTX
        u8QueueLengthTx partnersName with
        ⟨hc, hr⟩ | ⟨_, _, hs, hr⟩ | ⟨hc, ha, hs, ht, _⟩
    · have hr2 : r = _ := hr
      rw [hr2]
      refine ⟨fun _ => ?_, fun _ => rfl⟩
      rcases hc with h | h
      · exact Or.inl (by omega)
      · exact Or.inr (Or.inl h)
    · have hr2 : r = _ := hr
      rw [hr2]
      exact ⟨fun _ => Or.inr (Or.inr hs), fun _ => rfl⟩
    · have ht2 : r.ret = true := ht
      rw [ht2]
      refine ⟨fun h => Bool.noConfusion h, ?_⟩
      rintro (h | h | h)
      · omega
      · exact absurd h ha
      · exact absurd h hs
  refine ⟨hiff, ?_, ?_, ?_, fun h => hiff.2 (Or.inl (by omega)), hreach.1, hreach.2⟩
  · intro hf
    rcases addCommPartner_paths self partnersAddress semaphore queueRX u8QueueLengthRx queueTX
        u8QueueLengthTx partnersName with
        ⟨_, hr⟩ | ⟨_, _, _, hr⟩ | ⟨_, _, _, ht, _⟩
    · have hr2 : r = _ := hr
      rw [hr2]
      exact ⟨rfl, fun _ => rfl, fun _ => rfl⟩
    · have hr2 : r = _ := hr
      rw [hr2]
      have hlook : ∀ x, (self.modifyPartner self._u8CurrCommPartners (fun p =>
          { p with commPartner := partnersAddress }))._getCommStruct x
          = self._getCommStruct x := by
        intro x
        apply getCommStruct_congr
        · rfl
        · intro i hi
          rw [modifyPartner_other _ _ _ _ (by omega)]
      refine ⟨rfl, hlook, fun x => ?_⟩
      simp only [getPartnersName]
      rw [hlook x]
      by_cases hx : self._getCommStruct x = -1
      · rw [if_pos hx, if_pos hx]
      · rw [if_neg hx, if_neg hx]
        obtain ⟨pos, hpos⟩ : ∃ pos : Nat, self._getCommStruct x = (pos : Int) := by
          unfold _getCommStruct at hx ⊢
          split_ifs at hx ⊢ with h0
          · exact absurd rfl hx
          · split at hx
            · exact ⟨_, rfl⟩
            · exact absurd rfl hx
        have hlt := getCommStruct_lt self x pos hpos
        rw [hpos, Int.toNat_ofNat, modifyPartner_other _ _ _ _ (by omega)]
    · have ht2 : r.ret = true := ht
      rw [ht2] at hf
      exact Bool.noConfusion hf
  · intro ht
    rcases addCommPartner_paths self partnersAddress semaphore queueRX u8QueueLengthRx queueTX
        u8QueueLengthTx partnersName with
        ⟨_, hr⟩ | ⟨_, _, _, hr⟩ | ⟨hc, _, _, _, _, hcount, _⟩
    · have hr2 : r = _ := hr
      rw [hr2] at ht
      exact Bool.noConfusion ht
    · have hr2 : r = _ := hr
      rw [hr2] at ht
      exact Bool.noConfusion ht
    · have h1 : r.state._u8CurrCommPartners = (self._u8CurrCommPartners + 1) % 256 := hcount
      rw [h1]
      exact Nat.mod_eq_of_lt (by omega)
  · rcases addCommPartner_paths self partnersAddress semaphore queueRX u8QueueLengthRx queueTX
        u8QueueLengthTx partnersName with
        ⟨_, hr⟩ | ⟨_, _, _, hr⟩ | ⟨_, _, _, _, _, _, hm, _⟩
    · have hr2 : r = _ := hr
      rw [hr2]
    · have hr2 : r = _ := hr
      rw [hr2]
      rfl
    · exact hm

/-- C12 at a concrete input: `stagedTwo` holds its maximum of one partner, so a further
registration with non-null identity and lock fails. -/
theorem C12_addCommPartner_witness :
    (stagedTwo._u8MaxPartners ≤ 255 ∧ (1 : Nat) ≤ 255)
    ∧ (stagedTwo.addCommPartner 5 6 0 0 0 0 "q").ret = false
    ∧ (stagedTwo.addCommPartner 5 6 0 0 0 0 "q").state._u8CurrCommPartners = 1 :=
  have h := C12_addCommPartner_fails_exactly_when_full_or_null stagedTwo 5 6 0 0 0 0 "q" 1
    Staged.unset [] (by decide) (by decide)
  have hf : (stagedTwo.addCommPartner 5 6 0 0 0 0 "q").ret = false :=
    h.1.2 (Or.inl (by decide))
  ⟨⟨by decide, by decide⟩, hf, (h.2.1 hf).1⟩

/-- C13 fails as stated: two `addCommPartner` calls with the same identity both succeed and
leave records 0 and 1 holding that identity. -/
theorem C13_same_identity_registered_twice :
    (let s := (run (symbolic 2) [Op.addCommPartner 1 1 0 0 0 0 "a",
        Op.addCommPartner 1 1 0 0 0 0 "b"]).1
    s._u8CurrCommPartners = 2
    ∧ (s._structCommPartners 0).commPartner = (s._structCommPartners 1).commPartner) := by
  decide!

/-- C13 as amended: in every registry state reached from a fresh transceiver (maximum within
`uint8_t`) by `addCommPartner` calls whose identities are pairwise distinct, no two records at
different registry indices below the partner count hold the same task identity. -/
theorem C13_distinct_calls_give_distinct_records (u8MaxPartners : Nat) (dflt : T)
    (ops : List (Op T)) (hmax : u8MaxPartners ≤ 255)
    (hreg : ∀ op ∈ ops, op.isRegistration = true)
    (hnodup : (ops.map Op.identity).Nodup) :
    (let s := (run (FRTTransceiver.new u8MaxPartners dflt) ops).1
    ∀ i j, i < s._u8CurrCommPartners → j < s._u8CurrCommPartners → i ≠ j →
      (s._structCommPartners i).commPartner ≠ (s._structCommPartners j).commPartner) := by
  intro s
  exact run_registrations_distinct ops (FRTTransceiver.new u8MaxPartners dflt) hmax
    (Nat.zero_le _) (fun i j hi => absurd hi (Nat.not_lt_zero i))
    (fun i hi => absurd hi (Nat.not_lt_zero i)) hreg hnodup

/-- C13 as amended, at a concrete input: identities 1 and 2 registered one after the other. -/
theorem C13_distinct_calls_witness :
    ((2 : Nat) ≤ 255
      ∧ (∀ op ∈ [(Op.addCommPartner 1 1 0 0 0 0 "a" : Op Staged),
          Op.addCommPartner 2 1 0 0 0 0 "b"], op.isRegistration = true)
      ∧ ([(Op.addCommPartner 1 1 0 0 0 0 "a" : Op Staged),
          Op.addCommPartner 2 1 0 0 0 0 "b"].map Op.identity).Nodup)
    ∧ (let s := (run (FRTTransceiver.new 2 Staged.unset)
          [(Op.addCommPartner 1 1 0 0 0 0 "a" : Op Staged),
            Op.addCommPartner 2 1 0 0 0 0 "b"]).1
      (s._structCommPartners 0).commPartner ≠ (s._structCommPartners 1).commPartner) :=
  have hreg : ∀ op ∈ [(Op.addCommPartner 1 1 0 0 0 0 "a" : Op Staged),
      Op.addCommPartner 2 1 0 0 0 0 "b"], op.isRegistration = true := by
    intro op hop
    simp only [List.mem_cons, List.mem_singleton, List.not_mem_nil, or_false] at hop
    rcases hop with h | h <;> rw [h] <;> rfl
  have hnd : ([(Op.addCommPartner 1 1 0 0 0 0 "a" : Op Staged),
      Op.addCommPartner 2 1 0 0 0 0 "b"].map Op.identity).Nodup := by decide
  ⟨⟨by decide, hreg, hnd⟩,
    C13_distinct_calls_give_distinct_records 2 Staged.unset _ (by decide) hreg hnd 0 1
      (by decide!) (by decide!) (by decide)⟩

/-- C14: for a partner the lookup finds, whose record holds a lock and a tx queue of declared
capacity in `(0, maxElements]` but no rx queue, every `readFromQueue` returns false with the
state as it was and without any call, whatever the timeouts and the environment; and
`writeToQueue` to it with both callbacks set, non-null data and valid timeouts returns true
when the lock is acquired, the queue depth (within `uint8_t`) differs from the declared
capacity and the enqueue succeeds. -/
theorem C14_tx_only_partner_sends_but_never_receives (maxElements : Nat)
    (self : FRTTransceiver T) (partner pos u8DataType data : Nat)
    (blockTimeWrite blockTimeRead blockTimeTakeSemaphore : Int) (additionalData depth : Nat)
    (takeOk : Bool) (received : Option DataContainerOnQueue)
    (hpos : self._getCommStruct partner = (pos : Int))
    (hsem : (self._structCommPartners pos).semaphore ≠ 0)
    (htx : (self._structCommPartners pos).txQueue ≠ 0)
    (hlen : 0 < (self._structCommPartners pos).u8TxQueueLength
      ∧ (self._structCommPartners pos).u8TxQueueLength ≤ maxElements)
    (hnorx : (self._structCommPartners pos).rxQueue = 0) :
    (let r := self.readFromQueue partner blockTimeRead blockTimeTakeSemaphore takeOk received
    let w := self.writeToQueue maxElements partner u8DataType data blockTimeWrite
      blockTimeTakeSemaphore additionalData true depth true
    r = ⟨self, false, []⟩
    ∧ (self._dataAllocator.isSome = true → self._dataDestroyer.isSome = true → data ≠ 0 →
        -1 ≤ blockTimeWrite → -1 ≤ blockTimeTakeSemaphore → depth < 256 →
        depth ≠ (self._structCommPartners pos).u8TxQueueLength → w.ret = true)) := by
  intro r w
  have hposI : (self._getCommStruct partner).toNat = pos := by rw [hpos]; rfl
  constructor
  · rcases readFromQueue_paths self partner blockTimeRead blockTimeTakeSemaphore takeOk
        received with
        ⟨_, hr⟩ | ⟨hp, _⟩ | ⟨hp, _⟩ | ⟨hp, _⟩ | ⟨hp, _⟩
    · exact hr
    all_goals
      have h := hp.2.2.2.1
      rw [hposI] at h
      exact absurd hnorx h
  · intro hA hD hdata hw hl hd hne
    have hmod : depth % 256 = depth := Nat.mod_eq_of_lt hd
    have hpaths := writeToQueue_paths maxElements self partner u8DataType data blockTimeWrite
      blockTimeTakeSemaphore additionalData true depth true
    simp only [hposI] at hpaths
    rcases hpaths with ⟨hn, _⟩ | ⟨_, ht, _⟩ | ⟨_, _, hb, _⟩ | ⟨_, _, _, hfull, _⟩
        | ⟨_, _, _, _, hw2⟩
    · refine absurd ⟨(hasDataInterpreters_iff self).2 ⟨hA, hD⟩,
        hasSemaphore_of_found self partner pos hpos hsem, ?_, htx,
        (checkValidQueueLength_iff _ _).2 hlen, hdata, hl⟩ hn
      rw [hpos]
      omega
    · exact Bool.noConfusion ht
    · omega
    · rw [hmod] at hfull
      exact absurd hfull.symm hne
    · have hw3 : w = _ := hw2
      rw [hw3]

/-- C14 at a concrete input: partner 1 of a one-partner registry with lock 1, tx queue 2 of
capacity 2 and no rx queue. -/
theorem C14_tx_only_partner_witness :
    (let s := ((symbolic 1).addCommPartner 1 1 0 0 2 2 "p").state
    (s._getCommStruct 1 = ((0 : Nat) : Int)
      ∧ (s._structCommPartners 0).semaphore ≠ 0
      ∧ (s._structCommPartners 0).txQueue ≠ 0
      ∧ (s._structCommPartners 0).rxQueue = 0)
    ∧ s.readFromQueue 1 0 0 true (some ⟨9, 0, 0⟩) = ⟨s, false, []⟩
    ∧ (s.writeToQueue 10 1 0 5 0 0 0 true 1 true).ret = true) :=
  have h := C14_tx_only_partner_sends_but_never_receives 10
    ((symbolic 1).addCommPartner 1 1 0 0 2 2 "p").state 1 0 0 5 0 0 0 0 1 true
    (some ⟨9, 0, 0⟩) (by decide!) (by decide!) (by decide!) (by decide!) (by decide!)
  ⟨⟨by decide!, by decide!, by decide!, by decide!⟩, h.1,
    h.2 rfl rfl (by decide) (by decide) (by decide) (by decide) (by decide!)⟩

/-- C15: `addCommQueue` returns false, with the state as it was, exactly when the lookup of
the identity finds nothing (the identity is null or held by no registered record) or the queue
is null. Otherwise it returns
true, and in the record the lookup found only the handle and declared capacity of the selected
direction are new (tx when `isTxQueue`, rx otherwise); every other member of that record, every
other record, the partner count, the maximum and both callbacks are as before. It makes no call
into a primitive or a callback. -/
theorem C15_addCommQueue_sets_one_direction_only (self : FRTTransceiver T)
    (partner queueRxOrTx u8QueueLength : Nat) (isTxQueue : Bool) :
    (let r := self.addCommQueue partner queueRxOrTx u8QueueLength isTxQueue
    let pos := self._getCommStruct partner
    let p := self._structCommPartners pos.toNat
    let q := r.state._structCommPartners pos.toNat
    (r.ret = false ↔ (pos = -1 ∨ queueRxOrTx = 0))
    ∧ (pos = -1 ↔ (partner = 0 ∨ ∀ i, i < self._u8CurrCommPartners →
        (self._structCommPartners i).commPartner ≠ partner))
    ∧ r.calls = []
    ∧ (r.ret = false → r.state = self)
    ∧ (r.ret = true →
        (isTxQueue = true →
          q = { p with txQueue := queueRxOrTx, u8TxQueueLength := u8QueueLength })
        ∧ (isTxQueue = false →
          q = { p with rxQueue := queueRxOrTx, u8RxQueueLength := u8QueueLength })
        ∧ (∀ i : Nat, i ≠ pos.toNat →
          r.state._structCommPartners i = self._structCommPartners i)
        ∧ r.state._u8CurrCommPartners = self._u8CurrCommPartners
        ∧ r.state._u8MaxPartners = self._u8MaxPartners
        ∧ r.state._dataAllocator = self._dataAllocator
        ∧ r.state._dataDestroyer = self._dataDestroyer)) := by
  intro r pos p q
  by_cases h : pos = -1 ∨ queueRxOrTx = 0
  · have hr : r = ⟨self, false, []⟩ := by
      simp only [r, addCommQueue]
      rw [if_pos h]
    rw [hr]
    exact ⟨⟨fun _ => h, fun _ => rfl⟩, getCommStruct_eq_neg_one_iff self partner, rfl,
      fun _ => rfl, fun hc => Bool.noConfusion hc⟩
  · cases isTxQueue with
    | true =>
      have hr : r = ⟨self.modifyPartner pos.toNat (fun temp =>
          { temp with txQueue := queueRxOrTx, u8TxQueueLength := u8QueueLength }), true, []⟩ := by
        simp only [r, addCommQueue]
        rw [if_neg h]
        rfl
      have hq : q = { p with txQueue := queueRxOrTx, u8TxQueueLength := u8QueueLength } := by
        simp only [q, hr, modifyPartner_same]
      refine ⟨⟨fun hc => ?_, fun hc => absurd hc h⟩, getCommStruct_eq_neg_one_iff self partner,
        ?_, fun hc => ?_, fun _ =>
        ⟨fun _ => hq, fun hc => Bool.noConfusion hc, fun i hi => ?_, ?_, ?_, ?_, ?_⟩⟩
      · rw [hr] at hc
        exact Bool.noConfusion hc
      · rw [hr]
      · rw [hr] at hc
        exact Bool.noConfusion hc
      · rw [hr]
        dsimp only
        exact modifyPartner_other _ _ _ _ hi
      · rw [hr]; rfl
      · rw [hr]; rfl
      · rw [hr]; rfl
      · rw [hr]; rfl
    | false =>
      have hr : r = ⟨self.modifyPartner pos.toNat (fun temp =>
          { temp with rxQueue := queueRxOrTx, u8RxQueueLength := u8QueueLength }), true, []⟩ := by
        simp only [r, addCommQueue]
        rw [if_neg h]
        rfl
      have hq : q = { p with rxQueue := queueRxOrTx, u8RxQueueLength := u8QueueLength } := by
        simp only [q, hr, modifyPartner_same]
      refine ⟨⟨fun hc => ?_, fun hc => absurd hc h⟩, getCommStruct_eq_neg_one_iff self partner,
        ?_, fun hc => ?_, fun _ =>
        ⟨fun hc => Bool.noConfusion hc, fun _ => hq, fun i hi => ?_, ?_, ?_, ?_, ?_⟩⟩
      · rw [hr] at hc
        exact Bool.noConfusion hc
      · rw [hr]
      · rw [hr] at hc
        exact Bool.noConfusion hc
      · rw [hr]
        dsimp only
        exact modifyPartner_other _ _ _ _ hi
      · rw [hr]; rfl
      · rw [hr]; rfl
      · rw [hr]; rfl
      · rw [hr]; rfl

/-- C16: for a partner the lookup finds with `hasBufferedData` set, both callbacks being set,
`manualDeleteAllocatedData` makes exactly one call, the destroy callback on the entry of
staging slot 0, and clears `hasBufferedData`. Nothing is moved: the occupancy index and
`rxQueueFull` are as before, every staging slot other than 0 holds what it held, slot 0 holds
the object that was handed to the callback as the callback left it (so every slot is unchanged
when the callback does not write to its argument), every other member of the record and every
other record are unchanged. When `hasBufferedData` is false, the partner is unknown or a
callback is missing, it makes no call and the state is as it was. -/
theorem C16_manualDeleteAllocatedData_destroys_slot_zero_only (self : FRTTransceiver T)
    (partner : Nat) :
    (let r := self.manualDeleteAllocatedData partner
    let pos := (self._getCommStruct partner).toNat
    let p := self._structCommPartners pos
    let q := r.state._structCommPartners pos
    let applies := self._hasDataInterpreters = true ∧ self._getCommStruct partner ≠ -1
      ∧ p.hasBufferedData = true
    (applies →
      r.calls = [Call.dataDestroyer 0 (p.tempContainer 0)]
      ∧ q.hasBufferedData = false
      ∧ q.i8CurrTempcontainerPos = p.i8CurrTempcontainerPos
      ∧ q.rxQueueFull = p.rxQueueFull
      ∧ (∀ j : Int, j ≠ 0 → q.tempContainer j = p.tempContainer j)
      ∧ q.tempContainer 0 = self.callDestroyer (p.tempContainer 0)
      ∧ (self.callDestroyer (p.tempContainer 0) = p.tempContainer 0 →
          q.tempContainer = p.tempContainer)
      ∧ q = { p with
          hasBufferedData := false
          tempContainer := Function.update p.tempContainer 0
            (self.callDestroyer (p.tempContainer 0)) }
      ∧ (∀ i : Nat, i ≠ pos → r.state._structCommPartners i = self._structCommPartners i)
      ∧ r.state._u8CurrCommPartners = self._u8CurrCommPartners
      ∧ r.state._u8MaxPartners = self._u8MaxPartners
      ∧ r.state._dataAllocator = self._dataAllocator
      ∧ r.state._dataDestroyer = self._dataDestroyer)
    ∧ (¬ applies → r.calls = [] ∧ r.state = self)) := by
  intro r pos p q applies
  constructor
  · rintro ⟨hI, hpos, hbuf⟩
    have h1 : ¬ (self._hasDataInterpreters = false ∨ self._getCommStruct partner = -1) := by
      rintro (h | h)
      · rw [hI] at h
        exact Bool.noConfusion h
      · exact hpos h
    have hr : r = ⟨(self.modifyPartner pos (fun p0 =>
        { p0 with
          tempContainer := Function.update p0.tempContainer 0
            (self.callDestroyer (p.tempContainer 0)) })).modifyPartner
          pos (fun p0 => { p0 with hasBufferedData := false }), (),
        [Call.dataDestroyer 0 (p.tempContainer 0)]⟩ := by
      simp only [r, manualDeleteAllocatedData]
      rw [if_neg h1, if_pos hbuf]
    have hq : q = { p with
        hasBufferedData := false
        tempContainer := Function.update p.tempContainer 0
          (self.callDestroyer (p.tempContainer 0)) } := by
      simp only [q, hr, modifyPartner_same]
    refine ⟨by rw [hr], by rw [hq], by rw [hq], by rw [hq], fun j hj => ?_, ?_, fun hk => ?_, hq,
      fun i hi => ?_, by rw [hr]; rfl, by rw [hr]; rfl, by rw [hr]; rfl, by rw [hr]; rfl⟩
    · rw [hq]
      dsimp only
      rw [Function.update_noteq hj]
    · rw [hq]
      dsimp only
      rw [Function.update_same]
    · rw [hq]
      dsimp only
      rw [hk, Function.update_eq_self]
    · rw [hr]
      dsimp only
      rw [modifyPartner_other _ _ _ _ hi, modifyPartner_other _ _ _ _ hi]
  · intro hn
    by_cases h1 : self._hasDataInterpreters = false ∨ self._getCommStruct partner = -1
    · have hr : r = ⟨self, (), []⟩ := by
        simp only [r, manualDeleteAllocatedData]
        rw [if_pos h1]
      rw [hr]
      exact ⟨rfl, rfl⟩
    · have hbuf : ¬ ((self._structCommPartners (self._getCommStruct partner).toNat).hasBufferedData
          = true) := by
        intro hb
        apply hn
        simp only [not_or, Bool.not_eq_false] at h1
        exact ⟨h1.1, h1.2, hb⟩
      have hr : r = ⟨self, (), []⟩ := by
        simp only [r, manualDeleteAllocatedData]
        rw [if_neg h1, if_neg hbuf]
      rw [hr]
      exact ⟨rfl, rfl⟩

/-- C17, the code at a failing input: on a capacity-1 partner, after one successful receive
and one receive whose dequeue fails, `hasBufferedData` is still set while the occupancy index
is -1; `getNewestBufferedDataFrom` then returns the address of `tempContainer[-1]`, in front
of the array, and `getOldestBufferedDataFrom` returns the address of `tempContainer[0]` although
the occupied range `0 .. -1` is empty, while `getBufferedDataFrom(partner, 0)` answers
not-found. -/
theorem C17_code_newest_points_before_the_array :
    (let s := (run (symbolic 1) [Op.addCommPartner 1 1 1 1 0 0 "p",
        Op.readFromQueue 1 0 0 true (some ⟨7, 0, 0⟩),
        Op.readFromQueue 1 0 0 true none]).1
    (s._structCommPartners 0).hasBufferedData = true
    ∧ (s._structCommPartners 0).i8CurrTempcontainerPos = -1
    ∧ s.getNewestBufferedDataFrom 1 = some (-1)
    ∧ s.getOldestBufferedDataFrom 1 = some 0
    ∧ s.getBufferedDataFrom 1 0 = none) := by
  decide!

/-- C18, the code at a failing input: one partner of rx capacity 1; one successful receive,
`manualDeleteAllocatedData`, then a receive whose dequeue fails. The staging buffer is now
empty (occupancy index -1, no staged entry, `hasDataFrom` false) but `rxQueueFull` is still
set. One successful `readFromQueue` of an envelope with data 8 then evicts from the empty
buffer, handing the twice released slot 0 to the destroy callback, and hands the allocate
callback the slot in front of the array, `tempContainer[-1]`: afterwards the occupancy index is
still -1, no entry is staged, slot 0 does not hold the object produced for the envelope,
`getNewestBufferedDataFrom` points at index -1, and the destroy callback has run once where
`max (k - n) 0 = 0` invocations are due. The same receive on the freshly registered partner,
whose buffer is empty with the flag clear, stages the produced object at index 0 and destroys
nothing. -/
theorem C18_code_receive_into_emptied_buffer_stages_nothing :
    (let s := (run (symbolic 1) [Op.addCommPartner 1 1 1 1 0 0 "p",
        Op.readFromQueue 1 0 0 true (some ⟨7, 0, 0⟩),
        Op.manualDeleteAllocatedData 1,
        Op.readFromQueue 1 0 0 true none]).1
    let r := s.readFromQueue 1 0 0 true (some ⟨8, 0, 0⟩)
    let q := r.state._structCommPartners 0
    let fresh := (run (symbolic 1) [Op.addCommPartner 1 1 1 1 0 0 "p"]).1
    let f := fresh.readFromQueue 1 0 0 true (some ⟨8, 0, 0⟩)
    ((s._structCommPartners 0).u8RxQueueLength = 1
      ∧ (s._structCommPartners 0).i8CurrTempcontainerPos = -1
      ∧ (s._structCommPartners 0).staged = []
      ∧ s.hasDataFrom 1 = false
      ∧ (s._structCommPartners 0).rxQueueFull = true)
    ∧ (r.ret = true
      ∧ r.calls.filter (fun c => !isLockCall c && !isQueueCall c)
        = [Call.dataDestroyer 0
            (Staged.released (Staged.released (Staged.made ⟨7, 0, 0⟩ Staged.unset))),
           Call.dataAllocator ⟨8, 0, 0⟩ (-1) (Staged.made ⟨8, 0, 0⟩ Staged.unset)]
      ∧ q.i8CurrTempcontainerPos = -1
      ∧ q.staged = []
      ∧ q.tempContainer 0 ≠ Staged.made ⟨8, 0, 0⟩ Staged.unset
      ∧ q.tempContainer (-1) = Staged.made ⟨8, 0, 0⟩ Staged.unset
      ∧ r.state.getNewestBufferedDataFrom 1 = some (-1)
      ∧ (destroyed r.calls).length = 1)
    ∧ ((fresh._structCommPartners 0).i8CurrTempcontainerPos = -1
      ∧ (fresh._structCommPartners 0).rxQueueFull = false
      ∧ f.ret = true
      ∧ (f.state._structCommPartners 0).staged = [Staged.made ⟨8, 0, 0⟩ Staged.unset]
      ∧ f.state.getNewestBufferedDataFrom 1 = some 0
      ∧ destroyed f.calls = [])) := by
  decide!

/-- C19, the code at a failing input: on a capacity-1 partner, after one successful receive
and one receive whose dequeue fails, `rxQueueFull` is set while the staging buffer holds
`i8CurrTempcontainerPos + 1 = 0` entries against a declared capacity of 1; the next
`readFromQueue` evicts again, handing slot 0 to the destroy callback a second time. -/
theorem C19_code_full_flag_outlives_the_eviction :
    (let s := (run (symbolic 1) [Op.addCommPartner 1 1 1 1 0 0 "p",
        Op.readFromQueue 1 0 0 true (some ⟨7, 0, 0⟩),
        Op.readFromQueue 1 0 0 true none]).1
    (s._structCommPartners 0).rxQueueFull = true
    ∧ (s._structCommPartners 0).i8CurrTempcontainerPos + 1 = 0
    ∧ (s._structCommPartners 0).u8RxQueueLength = 1
    ∧ destroyed (s.readFromQueue 1 0 0 true none).calls
        = [Staged.released (Staged.made ⟨7, 0, 0⟩ Staged.unset)]) := by
  decide!

/-- C20: with the sentinel `FRTTRANSCEIVER_WAITMAX = -1`, `_checkWaitTime timeMs` is the invalid
marker -2 exactly when `timeMs < -1` and is `timeMs` itself otherwise, so the sentinel and
every non-negative time are accepted and every other negative time is rejected. The same
function decides both timeouts of both operations: a lock timeout it rejects ends
`writeToQueue` and `readFromQueue` with false before any call, one it accepts lets a call that
passes the other checks take the lock; with the lock acquired, a queue-operation timeout it
rejects ends the call with the lock given back and no queue call, one it accepts lets the call
go on to the queue primitive. -/
theorem C20_checkWaitTime_validates_both_timeouts (maxElements : Nat) (self : FRTTransceiver T)
    (partner u8DataType data : Nat) (blockTime blockTimeTakeSemaphore timeMs : Int)
    (additionalData depth : Nat) (sendOk : Bool) (received : Option DataContainerOnQueue) :
    (let w := self.writeToQueue maxElements partner u8DataType data blockTime
      blockTimeTakeSemaphore additionalData true depth sendOk
    let r := self.readFromQueue partner blockTime blockTimeTakeSemaphore true received
    let p := self._structCommPartners (self._getCommStruct partner).toNat
    let take : Call T := Call.xSemaphoreTake p.semaphore (toTicks blockTimeTakeSemaphore)
    let give : Call T := Call.xSemaphoreGive p.semaphore
    let found := self._hasDataInterpreters = true ∧ self._hasSemaphore partner = true
      ∧ self._getCommStruct partner ≠ -1
    let sendable := found ∧ p.txQueue ≠ 0
      ∧ _checkValidQueueLength maxElements p.u8TxQueueLength = true ∧ data ≠ 0
    let receivable := found ∧ p.rxQueue ≠ 0
    FRTTRANSCEIVER_WAITMAX = -1
    ∧ (_checkWaitTime timeMs = -2 ↔ timeMs < -1)
    ∧ (¬ timeMs < -1 → _checkWaitTime timeMs = timeMs)
    ∧ (0 ≤ timeMs ∨ timeMs = FRTTRANSCEIVER_WAITMAX → _checkWaitTime timeMs ≠ -2)
    ∧ (_checkWaitTime blockTimeTakeSemaphore = -2 →
        w = ⟨self, false, []⟩ ∧ r = ⟨self, false, []⟩)
    ∧ (_checkWaitTime blockTimeTakeSemaphore ≠ -2 →
        (sendable → w.calls.head? = some take) ∧ (receivable → r.calls.head? = some take))
    ∧ (_checkWaitTime blockTimeTakeSemaphore ≠ -2 → _checkWaitTime blockTime = -2 →
        (sendable → w = ⟨self, false, [take, give]⟩)
        ∧ (receivable → r = ⟨self, false, [take, give]⟩))
    ∧ (_checkWaitTime blockTimeTakeSemaphore ≠ -2 → _checkWaitTime blockTime ≠ -2 →
        (sendable → w.calls.filter isQueueCall ≠ [])
        ∧ (receivable → r.calls.filter isQueueCall ≠ []))) := by
  intro w r p take give found sendable receivable
  have hiff : ∀ t : Int, _checkWaitTime t = -2 ↔ t < -1 := by
    intro t
    rcases checkWaitTime_cases t with ⟨h, h2⟩ | ⟨h, h2⟩
    · exact ⟨fun _ => h, fun _ => h2⟩
    · constructor
      · intro h3
        omega
      · intro h3
        omega
  have hW := writeToQueue_paths maxElements self partner u8DataType data blockTime
      blockTimeTakeSemaphore additionalData true depth sendOk
  have hR := readFromQueue_paths self partner blockTime blockTimeTakeSemaphore true received
  refine ⟨rfl, hiff timeMs, fun h => checkWaitTime_of_valid timeMs (by omega), ?_, ?_, ?_, ?_, ?_⟩
  · intro h hc
    rw [hiff] at hc
    rcases h with h | h
    · omega
    · rw [h] at hc
      exact absurd hc (by decide)
  · intro hl
    rw [hiff] at hl
    constructor
    · rcases hW with ⟨_, hw⟩ | ⟨hp, _⟩ | ⟨hp, _⟩ | ⟨hp, _⟩ | ⟨hp, _⟩
      · exact hw
      all_goals
        have := hp.2.2.2.2.2.2
        omega
    · rcases hR with ⟨_, hr⟩ | ⟨hp, _⟩ | ⟨hp, _⟩ | ⟨hp, _⟩ | ⟨hp, _⟩
      · exact hr
      all_goals
        have := hp.2.2.2.2
        omega
  · intro hl
    have hl1 : -1 ≤ blockTimeTakeSemaphore := by
      have := (hiff blockTimeTakeSemaphore).not.1 hl
      omega
    constructor
    · rintro ⟨⟨a, b, c⟩, d, e, f⟩
      rcases hW with ⟨hn, _⟩ | ⟨_, ht, _⟩ | ⟨_, _, _, hw⟩ | ⟨_, _, _, _, hw⟩ | ⟨_, _, _, _, hw⟩
      · exact absurd ⟨a, b, c, d, e, f, hl1⟩ hn
      · exact Bool.noConfusion ht
      all_goals
        have hw2 : w = _ := hw
        rw [hw2]
        rfl
    · rintro ⟨⟨a, b, c⟩, d⟩
      rcases hR with ⟨hn, _⟩ | ⟨_, ht, _⟩ | ⟨_, _, _, hr⟩ | ⟨_, _, _, _, hr⟩
          | ⟨_, _, _, _, _, _, _, _, hr⟩
      · exact absurd ⟨a, b, c, d, hl1⟩ hn
      · exact Bool.noConfusion ht
      · have hr2 : r = _ := hr
        rw [hr2]
        rfl
      · have hr2 : r = _ := hr
        rw [hr2]
        rfl
      · have hr2 : r.calls = _ := hr
        rw [hr2]
        rfl
  · intro hl hb
    have hl1 : -1 ≤ blockTimeTakeSemaphore := by
      have := (hiff blockTimeTakeSemaphore).not.1 hl
      omega
    have hb1 : blockTime < -1 := (hiff blockTime).1 hb
    constructor
    · rintro ⟨⟨a, b, c⟩, d, e, f⟩
      rcases hW with ⟨hn, _⟩ | ⟨_, ht, _⟩ | ⟨_, _, _, hw⟩ | ⟨_, _, h, _⟩ | ⟨_, _, h, _⟩
      · exact absurd ⟨a, b, c, d, e, f, hl1⟩ hn
      · exact Bool.noConfusion ht
      · exact hw
      · omega
      · omega
    · rintro ⟨⟨a, b, c⟩, d⟩
      rcases hR with ⟨hn, _⟩ | ⟨_, ht, _⟩ | ⟨_, _, _, hr⟩ | ⟨_, _, h, _⟩ | ⟨_, _, h, _⟩
      · exact absurd ⟨a, b, c, d, hl1⟩ hn
      · exact Bool.noConfusion ht
      · exact hr
      · omega
      · omega
  · intro hl hb
    have hl1 : -1 ≤ blockTimeTakeSemaphore := by
      have := (hiff blockTimeTakeSemaphore).not.1 hl
      omega
    have hb1 : -1 ≤ blockTime := by
      have := (hiff blockTime).not.1 hb
      omega
    constructor
    · rintro ⟨⟨a, b, c⟩, d, e, f⟩
      rcases hW with ⟨hn, _⟩ | ⟨_, ht, _⟩ | ⟨_, _, h, _⟩ | ⟨_, _, _, _, hw⟩ | ⟨_, _, _, _, hw⟩
      · exact absurd ⟨a, b, c, d, e, f, hl1⟩ hn
      · exact Bool.noConfusion ht
      · omega
      all_goals
        have hw2 : w = _ := hw
        rw [hw2]
        simp [List.filter, isQueueCall]
    · rintro ⟨⟨a, b, c⟩, d⟩
      rcases hR with ⟨hn, _⟩ | ⟨_, ht, _⟩ | ⟨_, _, h, _⟩ | ⟨_, _, _, _, hr⟩
          | ⟨_, _, _, _, _, _, _, _, hr⟩
      · exact absurd ⟨a, b, c, d, hl1⟩ hn
      · exact Bool.noConfusion ht
      · omega
      · have hr2 : r = _ := hr
        rw [hr2]
        simp [List.filter_append, List.filter, isQueueCall]
      · have hr2 : r.calls = _ := hr
        rw [hr2]
        simp [List.filter_append, List.filter, isQueueCall]

end FRT
